import Mathlib

/-!
Verification of the archive-metadata pipeline of `src/file_extractor.py`:
the filename parser (`FileExtractor.parse_archive_filename`), the record
model (`ArchiveInfo`, `ArchiveInfo.to_dict`) and the JSON metadata store
(`FileExtractor.save_archive_info`, `FileExtractor._save_archive_info_dict`,
and the post-extraction update in `FileExtractor.extract_file`).

Modelling conventions:
* Python strings are Lean `String`s / `List Char`; the regex class `\d` is
  modelled as ASCII digits (`Char.isDigit`).  Python's `re` also admits other
  Unicode decimal digits in `\d`; the archive filenames use only ASCII.
* CPython `re` semantics are kept for the anchor `$`: it matches at the end
  of the string or just before one final newline, so the parser accepts one
  optional trailing `'\n'` after `.zip`.
* `datetime.strptime(date_str, "%Y%m%d")` on the regex-extracted 8-digit
  group succeeds exactly when the 4-2-2 split is a real proleptic Gregorian
  calendar date with year at least 1 (`datetime.MINYEAR`); this is
  `strptimeYmdChars`.  `strftime("%Y-%m-%d")` is modelled zero-padded
  (4-2-2), following the format table of the `datetime` documentation.
* The JSON document is modelled by the inductive `JVal`; reading and writing
  the file transports `JVal`s (the JSON serialization of `json.dump` /
  `json.load` is taken as a faithful pair).  The on-disk state is a
  `FileContent`: `absent` (no file), `corrupt` (UTF-8 text that is not valid
  JSON: `json.load` raises `json.JSONDecodeError`), `undecodable` (bytes
  that are not valid UTF-8: `json.load` raises `UnicodeDecodeError`, which
  the inner `except (json.JSONDecodeError, IOError)` at line 181 does NOT
  catch) or `json v`.  A write by `open(path, "w")` + `json.dump` is not
  atomic: `WriteOutcome.openFail` models `open` itself failing (file left
  unchanged), `WriteOutcome.midFail` models an I/O error after the file was
  truncated (file left as unparseable partial output, i.e. `corrupt`).
* Python exceptions inside the `try` of the save routines are modelled by
  the failure result `(false, unchanged file)`: the `try` bodies
  (lines 174-215 and 409-439) are total functions returning a boolean.
  The `mkdir(parents=True, exist_ok=True)` at lines 172 and 407 runs
  BEFORE the `try` and can itself raise to the caller (`FileExistsError`
  when the parent path exists as a regular file, `PermissionError`);
  `MkdirOutcome` and the `_full` save functions model this raising step,
  with `.error` standing for an exception that escapes to the caller.
-/

/-! ## Digits, dates, `strptime`/`strftime` -/

/-- Decimal value of an ASCII digit character. -/
def digitVal (c : Char) : Nat := c.toNat - 48

/-- The ASCII digit character of a value below 10. -/
def digitChar : Nat → Char
  | 0 => '0' | 1 => '1' | 2 => '2' | 3 => '3' | 4 => '4'
  | 5 => '5' | 6 => '6' | 7 => '7' | 8 => '8' | 9 => '9'
  | _ => '?'

/-- Four-digit zero-padded decimal rendering (the `%Y` field of
`strftime("%Y-%m-%d")` for years 1..9999). -/
def pad4 (n : Nat) : List Char :=
  [digitChar (n / 1000 % 10), digitChar (n / 100 % 10),
   digitChar (n / 10 % 10), digitChar (n % 10)]

/-- Two-digit zero-padded decimal rendering (`%m` / `%d` of `strftime`). -/
def pad2 (n : Nat) : List Char :=
  [digitChar (n / 10 % 10), digitChar (n % 10)]

/-- Proleptic Gregorian leap-year rule used by `datetime`. -/
def isLeapYear (y : Nat) : Bool :=
  y % 4 == 0 && (y % 100 != 0 || y % 400 == 0)

/-- Number of days of month `m` of year `y`, as `datetime` validates it. -/
def daysInMonth (y m : Nat) : Nat :=
  match m with
  | 1 => 31 | 2 => if isLeapYear y then 29 else 28
  | 3 => 31 | 4 => 30 | 5 => 31 | 6 => 30 | 7 => 31
  | 8 => 31 | 9 => 30 | 10 => 31 | 11 => 30 | 12 => 31
  | _ => 0

/-- Model of `datetime.strptime(s, "%Y%m%d")` on the regex-extracted
8-digit group: the 4-2-2 split must be a real calendar date with
year ≥ `datetime.MINYEAR = 1`, else `ValueError` (`none`). -/
def strptimeYmdChars (l : List Char) : Option (Nat × Nat × Nat) :=
  match l with
  | [c1, c2, c3, c4, c5, c6, c7, c8] =>
    if ([c1, c2, c3, c4, c5, c6, c7, c8]).all Char.isDigit then
      let y := digitVal c1 * 1000 + digitVal c2 * 100 + digitVal c3 * 10 + digitVal c4
      let m := digitVal c5 * 10 + digitVal c6
      let d := digitVal c7 * 10 + digitVal c8
      if 1 ≤ y ∧ 1 ≤ m ∧ m ≤ 12 ∧ 1 ≤ d ∧ d ≤ daysInMonth y m then
        some (y, m, d)
      else none
    else none
  | _ => none

/-- String form of `strptimeYmdChars` (the `ArchiveInfo.date` property,
line 33-36 of `file_extractor.py`, and the validation at line 136-140). -/
def strptimeYmd (s : String) : Option (Nat × Nat × Nat) :=
  strptimeYmdChars s.data

/-- Model of `date.strftime("%Y-%m-%d")` on a parsed date. -/
def formatYmd (y m d : Nat) : String :=
  String.mk (pad4 y ++ '-' :: (pad2 m ++ '-' :: pad2 d))

/-! ## JSON values -/

/-- JSON values, the documents moved by `json.load` / `json.dump`.  Objects
keep their key order (Python dicts preserve insertion order). -/
inductive JVal where
  | str (s : String)
  | bool (b : Bool)
  | num (n : Int)
  | null
  | arr (items : List JVal)
  | obj (fields : List (String × JVal))

/-- Structural equality of JSON values, Python's `==` on loaded documents. -/
def jvalBeq : JVal → JVal → Bool
  | .str a, .str b => a == b
  | .bool a, .bool b => a == b
  | .num a, .num b => a == b
  | .null, .null => true
  | .arr a, .arr b => listBeq a b
  | .obj a, .obj b => objBeq a b
  | _, _ => false
where
  listBeq : List JVal → List JVal → Bool
    | [], [] => true
    | x :: xs, y :: ys => jvalBeq x y && listBeq xs ys
    | _, _ => false
  objBeq : List (String × JVal) → List (String × JVal) → Bool
    | [], [] => true
    | (k, v) :: xs, (k2, v2) :: ys => k == k2 && jvalBeq v v2 && objBeq xs ys
    | _, _ => false

/-! ## The record: `ArchiveInfo` -/

/-- The dataclass `ArchiveInfo` (lines 23-31 of `file_extractor.py`). -/
structure ArchiveInfo where
  filename : String
  date_str : String
  post_id : String
  floor_number : String
  author_id : String
  encryption_method : String
deriving DecidableEq

/-- The `forum_url` property (lines 38-41). -/
def ArchiveInfo.forum_url (info : ArchiveInfo) : String :=
  "https://cc98.org/" ++ info.post_id ++ "/"

/-- The `password_description` value built in `to_dict` (line 54). -/
def ArchiveInfo.password_description (info : ArchiveInfo) : String :=
  info.forum_url ++ " 中 " ++ info.floor_number ++ "楼 匿名" ++ info.author_id
    ++ " 发表内容的" ++ info.encryption_method ++ "哈希"

/-- `ArchiveInfo.to_dict` (lines 43-55): the persisted key/value pairs in
dict insertion order.  `self.date` raises `ValueError` when `date_str` is
not a valid `%Y%m%d` date, modelled by `none`. -/
def ArchiveInfo.to_dict (info : ArchiveInfo) : Option (List (String × JVal)) :=
  (strptimeYmd info.date_str).map fun ymd =>
    [("filename", JVal.str info.filename),
     ("date_str", JVal.str info.date_str),
     ("date_formatted", JVal.str (formatYmd ymd.1 ymd.2.1 ymd.2.2)),
     ("post_id", JVal.str info.post_id),
     ("floor_number", JVal.str info.floor_number),
     ("author_id", JVal.str ("匿名" ++ info.author_id)),
     ("encryption_method", JVal.str info.encryption_method),
     ("forum_url", JVal.str info.forum_url),
     ("password_description", JVal.str info.password_description)]

/-! ## The filename parser -/

/-- The literal head `chalaoshi_csv` of the filename grammar. -/
def csvLit : List Char := "chalaoshi_csv".data

/-- Consume an exact literal from the front of the input. -/
def stripLit : List Char → List Char → Option (List Char)
  | [], l => some l
  | c :: cs, x :: xs => if x = c then stripLit cs xs else none
  | _ :: _, [] => none

/-- Consume exactly eight ASCII digits (the group `(\d{8})`). -/
def take8Digits : List Char → Option (List Char × List Char)
  | c1 :: c2 :: c3 :: c4 :: c5 :: c6 :: c7 :: c8 :: rest =>
    if ([c1, c2, c3, c4, c5, c6, c7, c8]).all Char.isDigit then
      some ([c1, c2, c3, c4, c5, c6, c7, c8], rest)
    else none
  | _ => none

/-- Consume one expected character. -/
def expectChar (c : Char) : List Char → Option (List Char)
  | x :: xs => if x = c then some xs else none
  | [] => none

/-- Consume a nonempty maximal run of characters satisfying `p` (the groups
`(\d+)`, `([^_]+)`, `([^.]+)`: each is followed by a literal that its class
excludes, so the regex group is exactly the maximal run). -/
def takeRun (p : Char → Bool) (l : List Char) : Option (List Char × List Char) :=
  match l.takeWhile p with
  | [] => none
  | t => some (t, l.dropWhile p)

/-- Model of `FileExtractor.parse_archive_filename` (lines 112-154): the
anchored regex `^chalaoshi_csv(\d{8})_(\d+)_(\d+)_([^_]+)_([^.]+)\.zip$`
(where `$` also matches just before one final newline), then the
`strptime` date validation.  Total: malformed input yields `none`,
never an exception. -/
def parseChars (l : List Char) : Option ArchiveInfo :=
  (stripLit csvLit l).bind fun r1 =>
  (take8Digits r1).bind fun dr =>
  (expectChar '_' dr.2).bind fun r3 =>
  (takeRun Char.isDigit r3).bind fun pr =>
  (expectChar '_' pr.2).bind fun r5 =>
  (takeRun Char.isDigit r5).bind fun fr =>
  (expectChar '_' fr.2).bind fun r7 =>
  (takeRun (fun c => c != '_') r7).bind fun ar =>
  (expectChar '_' ar.2).bind fun r9 =>
  (takeRun (fun c => c != '.') r9).bind fun mr =>
  if mr.2 = ['.', 'z', 'i', 'p'] ∨ mr.2 = ['.', 'z', 'i', 'p', '\n'] then
    (strptimeYmdChars dr.1).bind fun _ =>
    some ⟨String.mk l, String.mk dr.1, String.mk pr.1, String.mk fr.1,
          String.mk ar.1, String.mk mr.1⟩
  else none

/-- `parse_archive_filename` on a `String`. -/
def parse_archive_filename (s : String) : Option ArchiveInfo :=
  parseChars s.data

/-! ## The metadata store -/

/-- State of the store file `logs/archive_info.json`: missing, UTF-8 text
that is not valid JSON (`json.JSONDecodeError`), bytes that are not even
decodable as UTF-8 (`UnicodeDecodeError`), or a JSON document. -/
inductive FileContent where
  | absent
  | corrupt
  | undecodable
  | json (v : JVal)

/-- Outcome of the `open(path, "w")` + `json.dump` write:  success, a
failure of `open` itself (unwritable path; nothing was touched), or an I/O
error after the file was already truncated (partial, unparseable output). -/
inductive WriteOutcome where
  | ok
  | openFail
  | midFail

/-- Lines 174-183 (and 409-417): the existing document.  A missing file
skips the read; a `json.JSONDecodeError` (text that is not valid JSON) or
an `IOError` is caught by the inner handler at line 181 and degrades to the
empty list.  Content that is not decodable as UTF-8 raises
`UnicodeDecodeError` inside `json.load`, which the inner
`except (json.JSONDecodeError, IOError)` does not catch, so it escapes to
the outer handler: the save fails with the file unchanged (`none`).
Valid JSON that is not an array makes the later dict operations raise
before anything is written (also `none`). -/
def readExistingData : FileContent → Option (List JVal)
  | .absent => some []
  | .corrupt => some []
  | .undecodable => none
  | .json (.arr l) => some l
  | .json _ => none

/-- One step of the scan loop (lines 188-191 / 422-426): does a stored
element match the target filename value?  `record.get('filename')` returns
`None` (JSON `null`) for a missing key; only dict elements can be asked. -/
def matchesFilename (target : JVal) : JVal → Bool
  | .obj fields => jvalBeq ((List.lookup "filename" fields).getD .null) target
  | _ => false

/-- The scan loop (lines 188-191 / 422-426): index of the first record
whose `filename` equals the target, `none` if no record matches, and
`.error` when a non-dict element is reached (`record.get` raises
`AttributeError`); the loop breaks at the first match. -/
def findFirstMatch (target : JVal) : List JVal → Except Unit (Option Nat)
  | [] => .ok none
  | r :: rest =>
    match r with
    | .obj fields =>
      if jvalBeq ((List.lookup "filename" fields).getD .null) target then
        .ok (some 0)
      else (findFirstMatch target rest).map (Option.map (· + 1))
    | _ => .error ()

/-- The upsert of the list (lines 185-204 / 419-429): find the first
matching record, replace it in place, or append at the end. -/
def storeUpdate (target newRecord : JVal) (l : List JVal) : Except Unit (List JVal) :=
  match findFirstMatch target l with
  | .error e => .error e
  | .ok (some i) => .ok (l.set i newRecord)
  | .ok none => .ok (l ++ [newRecord])

/-- The write of the updated document (lines 206-208 / 431-433) under a
given outcome of the non-atomic `open("w")` + `json.dump`. -/
def writeBack (fs : FileContent) (w : WriteOutcome) (l : List JVal) : Bool × FileContent :=
  match w with
  | .ok => (true, .json (.arr l))
  | .openFail => (false, fs)
  | .midFail => (false, .corrupt)

/-- Model of the `try` body of `FileExtractor.save_archive_info`
(lines 174-215), the store's upsert: read (degrading to `[]` for a caught
read error), build the new record as `to_dict` plus an `updated_at`
timestamp (`now`), replace-or-append by filename, write everything back.
Any exception inside the `try` is the result `(false, file unchanged)`;
this body is total and returns a boolean.  The parent-directory `mkdir` at
line 172 runs before the `try` and can raise to the caller; the whole
routine including that step is `save_archive_info_full`. -/
def save_archive_info (info : ArchiveInfo) (now : String) (fs : FileContent)
    (w : WriteOutcome) : Bool × FileContent :=
  match readExistingData fs with
  | none => (false, fs)
  | some l =>
    match ArchiveInfo.to_dict info with
    | none => (false, fs)
    | some fields =>
      match storeUpdate (JVal.str info.filename)
          (JVal.obj (fields ++ [("updated_at", JVal.str now)])) l with
      | .error _ => (false, fs)
      | .ok l2 => writeBack fs w l2

/-- Model of the `try` body of `FileExtractor._save_archive_info_dict`
(lines 409-439): the same read / replace-or-append / write cycle, but the
given dict is stored exactly as passed — no `updated_at` is attached.  A
non-dict argument or a missing `filename` key raises (`KeyError`), i.e.
fails with the file unchanged.  The `mkdir` at line 407 runs before the
`try`; the whole routine is `save_archive_info_dict_full`. -/
def save_archive_info_dict (d : JVal) (fs : FileContent)
    (w : WriteOutcome) : Bool × FileContent :=
  match readExistingData fs with
  | none => (false, fs)
  | some l =>
    match d with
    | .obj dfields =>
      match List.lookup "filename" dfields with
      | none => (false, fs)
      | some target =>
        match storeUpdate target d l with
        | .error _ => (false, fs)
        | .ok l2 => writeBack fs w l2
    | _ => (false, fs)

/-- The post-extraction dict built in `FileExtractor.extract_file`
(lines 380-388): a fresh `to_dict` plus `extracted`, `extract_dir` and
`extraction_time` — and nothing else. -/
def markExtractedDict (info : ArchiveInfo) (extract_dir extraction_time : String) :
    Option JVal :=
  (ArchiveInfo.to_dict info).map fun fields =>
    JVal.obj (fields ++
      [("extracted", JVal.bool true),
       ("extract_dir", JVal.str extract_dir),
       ("extraction_time", JVal.str extraction_time)])

/-- The post-extraction save of `extract_file` (lines 380-388): build the
dict and hand it to `_save_archive_info_dict`. -/
def markExtracted (info : ArchiveInfo) (extract_dir extraction_time : String)
    (fs : FileContent) (w : WriteOutcome) : Bool × FileContent :=
  match markExtractedDict info extract_dir extraction_time with
  | some d => save_archive_info_dict d fs w
  | none => (false, fs)

/-- Outcome of `output_path_obj.parent.mkdir(parents=True, exist_ok=True)`
(lines 171-172 and 406-407), which runs BEFORE the `try`: it succeeds, or
it raises to the caller — `exist_ok=True` suppresses `FileExistsError`
only for an existing directory, so a parent path occupied by a regular
file raises `FileExistsError`, and a permission failure raises
`PermissionError`. -/
inductive MkdirOutcome where
  | ok
  | raises

/-- Model of the whole `FileExtractor.save_archive_info` (lines 156-215):
the `mkdir` before the `try`, then the `try` body.  The first component is
`.error ()` when the `mkdir` raised — the exception escapes to the caller
and no boolean is returned — and `.ok b` for the boolean the `try` body
returns; the second component is the resulting store file, untouched by a
`mkdir` failure. -/
def save_archive_info_full (info : ArchiveInfo) (now : String) (mk : MkdirOutcome)
    (fs : FileContent) (w : WriteOutcome) : Except Unit Bool × FileContent :=
  match mk with
  | .raises => (.error (), fs)
  | .ok => ((save_archive_info info now fs w).1 |> .ok, (save_archive_info info now fs w).2)

/-- Model of the whole `FileExtractor._save_archive_info_dict`
(lines 395-439): the `mkdir` at line 407 before the `try`, then the `try`
body. -/
def save_archive_info_dict_full (d : JVal) (mk : MkdirOutcome)
    (fs : FileContent) (w : WriteOutcome) : Except Unit Bool × FileContent :=
  match mk with
  | .raises => (.error (), fs)
  | .ok => ((save_archive_info_dict d fs w).1 |> .ok, (save_archive_info_dict d fs w).2)

/-! ## Specification-side definitions (for stating the claims) -/

/-- One decomposition of the filename grammar of the specification:
`chalaoshi_csv` + 8 digits + `_` + digits + `_` + digits + `_` +
non-underscore chars + `_` + non-dot chars + a tail `z`.  The strict
grammar of the specification fixes `z = ".zip"`. -/
def GrammarDecomp (l d p f a m z : List Char) : Prop :=
  l = csvLit ++ (d ++ '_' :: (p ++ '_' :: (f ++ '_' :: (a ++ '_' :: (m ++ z)))))
    ∧ d.length = 8 ∧ (∀ c ∈ d, c.isDigit = true)
    ∧ p ≠ [] ∧ (∀ c ∈ p, c.isDigit = true)
    ∧ f ≠ [] ∧ (∀ c ∈ f, c.isDigit = true)
    ∧ a ≠ [] ∧ (∀ c ∈ a, c ≠ '_')
    ∧ m ≠ [] ∧ (∀ c ∈ m, c ≠ '.')

/-- The specification's anchored grammar with a valid calendar date:
the whole string is a decomposition ending exactly in `.zip`. -/
def SpecGrammarMatch (s : String) : Prop :=
  ∃ d p f a m, GrammarDecomp s.data d p f a m ['.', 'z', 'i', 'p']
    ∧ (strptimeYmdChars d).isSome = true

/-- The grammar as the code's regex actually anchors it: CPython `$` also
matches just before one final newline. -/
def PyGrammarMatch (s : String) : Prop :=
  ∃ d p f a m z, GrammarDecomp s.data d p f a m z
    ∧ (z = ['.', 'z', 'i', 'p'] ∨ z = ['.', 'z', 'i', 'p', '\n'])
    ∧ (strptimeYmdChars d).isSome = true

/-- `YYYYMMDD` with hyphens inserted (the claims' phrasing of
`date_formatted`): same characters, split 4-2-2. -/
def hyphenate8 (s : String) : String :=
  String.mk (s.data.take 4 ++ '-' :: ((s.data.drop 4).take 2 ++ '-' :: s.data.drop 6))

/-- The record a reader of the store finds for a filename: the first
element matching it. -/
def getRecord (f : String) (l : List JVal) : Option JVal :=
  l.find? (matchesFilename (JVal.str f))

/-- How many stored elements carry the given filename. -/
def countByFilename (f : String) (l : List JVal) : Nat :=
  l.countP (matchesFilename (JVal.str f))

/-- Every element of the stored list is a JSON object (a record). -/
def allObjs (l : List JVal) : Prop :=
  ∀ r ∈ l, ∃ fields, r = JVal.obj fields

/-- The list held by a store file, empty for anything but a JSON array. -/
def storeList : FileContent → List JVal
  | .json (.arr l) => l
  | _ => []

/-- The `updated_at` value of the stored record of a filename:
`none` when the store has no such record, `some none` when the record
exists but carries no `updated_at` key, `some (some v)` otherwise. -/
def storedUpdatedAt (fs : FileContent) (f : String) : Option (Option JVal) :=
  (getRecord f (storeList fs)).map fun r =>
    match r with
    | .obj fields => List.lookup "updated_at" fields
    | _ => none

/-! ## Helper lemmas: digits and rendering -/

theorem isDigit_toNat_bounds (c : Char) (h : c.isDigit = true) :
    48 ≤ c.toNat ∧ c.toNat ≤ 57 := by
  simp only [Char.isDigit, decide_eq_true_eq, Bool.and_eq_true] at h
  exact ⟨h.1, h.2⟩

theorem digitChar_digitVal (c : Char) (h : c.isDigit = true) :
    digitChar (digitVal c) = c := by
  obtain ⟨h1, h2⟩ := isDigit_toNat_bounds c h
  have hc : c = Char.ofNat c.toNat := (Char.ofNat_toNat c).symm
  unfold digitVal
  interval_cases h : c.toNat <;> rw [hc] <;> rfl

theorem digitVal_lt_ten (c : Char) (h : c.isDigit = true) : digitVal c < 10 := by
  obtain ⟨h1, h2⟩ := isDigit_toNat_bounds c h
  unfold digitVal; omega

theorem pad4_digits (a b c d : Char) (ha : a.isDigit = true) (hb : b.isDigit = true)
    (hc : c.isDigit = true) (hd : d.isDigit = true) :
    pad4 (digitVal a * 1000 + digitVal b * 100 + digitVal c * 10 + digitVal d) =
      [a, b, c, d] := by
  have na := digitVal_lt_ten a ha
  have nb := digitVal_lt_ten b hb
  have nc := digitVal_lt_ten c hc
  have nd := digitVal_lt_ten d hd
  unfold pad4
  have e1 : (digitVal a * 1000 + digitVal b * 100 + digitVal c * 10 + digitVal d)
      / 1000 % 10 = digitVal a := by omega
  have e2 : (digitVal a * 1000 + digitVal b * 100 + digitVal c * 10 + digitVal d)
      / 100 % 10 = digitVal b := by omega
  have e3 : (digitVal a * 1000 + digitVal b * 100 + digitVal c * 10 + digitVal d)
      / 10 % 10 = digitVal c := by omega
  have e4 : (digitVal a * 1000 + digitVal b * 100 + digitVal c * 10 + digitVal d)
      % 10 = digitVal d := by omega
  rw [e1, e2, e3, e4, digitChar_digitVal a ha, digitChar_digitVal b hb,
      digitChar_digitVal c hc, digitChar_digitVal d hd]

theorem pad2_digits (a b : Char) (ha : a.isDigit = true) (hb : b.isDigit = true) :
    pad2 (digitVal a * 10 + digitVal b) = [a, b] := by
  have na := digitVal_lt_ten a ha
  have nb := digitVal_lt_ten b hb
  unfold pad2
  have e1 : (digitVal a * 10 + digitVal b) / 10 % 10 = digitVal a := by omega
  have e2 : (digitVal a * 10 + digitVal b) % 10 = digitVal b := by omega
  rw [e1, e2, digitChar_digitVal a ha, digitChar_digitVal b hb]

theorem string_eq_iff_data (s t : String) : s = t ↔ s.data = t.data := by
  constructor
  · intro h; rw [h]
  · intro h; cases s; cases t; simp only at h; rw [h]

/-! ## Helper lemmas: the parser pieces -/

theorem stripLit_eq_some (lit l r : List Char) :
    stripLit lit l = some r ↔ l = lit ++ r := by
  induction lit generalizing l with
  | nil => simp [stripLit]
  | cons c cs ih =>
    cases l with
    | nil => simp [stripLit]
    | cons x xs =>
      simp only [stripLit, List.cons_append, List.cons.injEq]
      by_cases hx : x = c
      · simp only [hx, if_pos rfl, true_and]; exact ih xs
      · simp only [if_neg hx]
        constructor
        · intro h; exact absurd h (by simp)
        · intro h; exact absurd h.1 hx

theorem exists_eight {α : Type} (l : List α) (h : l.length = 8) :
    ∃ c1 c2 c3 c4 c5 c6 c7 c8, l = [c1, c2, c3, c4, c5, c6, c7, c8] := by
  rcases l with _ | ⟨c1, _ | ⟨c2, _ | ⟨c3, _ | ⟨c4, _ | ⟨c5, _ | ⟨c6, _ | ⟨c7, _ | ⟨c8, _ | ⟨c9, t⟩⟩⟩⟩⟩⟩⟩⟩⟩ <;>
    simp only [List.length] at h <;> try omega
  exact ⟨c1, c2, c3, c4, c5, c6, c7, c8, rfl⟩

theorem take8Digits_eq_some (l d r : List Char) :
    take8Digits l = some (d, r) ↔
      l = d ++ r ∧ d.length = 8 ∧ (∀ c ∈ d, c.isDigit = true) := by
  constructor
  · intro h
    unfold take8Digits at h
    split at h
    · rename_i c1 c2 c3 c4 c5 c6 c7 c8 rest
      split at h
      · rename_i hdig
        simp only [Option.some.injEq, Prod.mk.injEq] at h
        obtain ⟨hd, hr⟩ := h
        subst hd; subst hr
        refine ⟨rfl, rfl, ?_⟩
        exact List.all_eq_true.mp hdig
      · exact absurd h (by simp)
    · exact absurd h (by simp)
  · rintro ⟨hl, hlen, hdig⟩
    obtain ⟨c1, c2, c3, c4, c5, c6, c7, c8, rfl⟩ := exists_eight d hlen
    subst hl
    have he : ([c1, c2, c3, c4, c5, c6, c7, c8] : List Char) ++ r =
        c1 :: c2 :: c3 :: c4 :: c5 :: c6 :: c7 :: c8 :: r := rfl
    rw [he]
    show (if ([c1, c2, c3, c4, c5, c6, c7, c8]).all Char.isDigit = true then
        some (([c1, c2, c3, c4, c5, c6, c7, c8] : List Char), r) else none) =
      some ([c1, c2, c3, c4, c5, c6, c7, c8], r)
    rw [if_pos (List.all_eq_true.mpr hdig)]

theorem expectChar_eq_some (c : Char) (l r : List Char) :
    expectChar c l = some r ↔ l = c :: r := by
  cases l with
  | nil => simp [expectChar]
  | cons x xs =>
    simp only [expectChar, List.cons.injEq]
    by_cases hx : x = c
    · subst hx; simp
    · simp only [if_neg hx]
      constructor
      · intro h; exact absurd h (by simp)
      · intro h; exact absurd h.1 hx

theorem takeWhile_append_cons (p : Char → Bool) (t : List Char) (y : Char)
    (r : List Char) (ht : ∀ x ∈ t, p x = true) (hy : p y = false) :
    (t ++ y :: r).takeWhile p = t ∧ (t ++ y :: r).dropWhile p = y :: r := by
  induction t with
  | nil => simp [List.takeWhile, List.dropWhile, hy]
  | cons x xs ih =>
    have hx : p x = true := ht x (List.mem_cons_self x xs)
    have ih2 := ih (fun z hz => ht z (List.mem_cons_of_mem x hz))
    simp only [List.cons_append, List.takeWhile_cons, List.dropWhile_cons, hx,
      if_true, List.cons.injEq, true_and]
    exact ⟨ih2.1, ih2.2⟩

theorem takeRun_eq_some_of (p : Char → Bool) (t : List Char) (y : Char)
    (r : List Char) (ht : ∀ x ∈ t, p x = true) (hne : t ≠ []) (hy : p y = false) :
    takeRun p (t ++ y :: r) = some (t, y :: r) := by
  obtain ⟨h1, h2⟩ := takeWhile_append_cons p t y r ht hy
  unfold takeRun
  rw [h1, h2]
  cases t with
  | nil => exact absurd rfl hne
  | cons a as => rfl

theorem takeRun_sound (p : Char → Bool) (l t r : List Char)
    (h : takeRun p l = some (t, r)) :
    l = t ++ r ∧ t ≠ [] ∧ (∀ x ∈ t, p x = true) := by
  unfold takeRun at h
  split at h
  · exact absurd h (by simp)
  · rename_i t' ht'
    simp only [Option.some.injEq, Prod.mk.injEq] at h
    obtain ⟨h1, h2⟩ := h
    subst h1; subst h2
    refine ⟨(List.takeWhile_append_dropWhile p l).symm, ?_, ?_⟩
    · exact ht'
    · intro x hx; exact List.mem_takeWhile_imp hx

/-! ## The parser against the grammar -/

theorem parseChars_complete (d p f a m z : List Char)
    (hd8 : d.length = 8) (hddig : ∀ c ∈ d, c.isDigit = true)
    (hp : p ≠ []) (hpdig : ∀ c ∈ p, c.isDigit = true)
    (hf : f ≠ []) (hfdig : ∀ c ∈ f, c.isDigit = true)
    (ha : a ≠ []) (hau : ∀ c ∈ a, c ≠ '_')
    (hm : m ≠ []) (hmd : ∀ c ∈ m, c ≠ '.')
    (hz : z = ['.', 'z', 'i', 'p'] ∨ z = ['.', 'z', 'i', 'p', '\n'])
    (ymd : Nat × Nat × Nat) (hymd : strptimeYmdChars d = some ymd) :
    parseChars (csvLit ++ (d ++ '_' :: (p ++ '_' :: (f ++ '_' :: (a ++ '_' :: (m ++ z)))))) =
      some ⟨String.mk (csvLit ++ (d ++ '_' :: (p ++ '_' :: (f ++ '_' :: (a ++ '_' :: (m ++ z)))))),
            String.mk d, String.mk p, String.mk f, String.mk a, String.mk m⟩ := by
  have hau' : ∀ x ∈ a, (x != '_') = true := fun x hx => bne_iff_ne.mpr (hau x hx)
  have hmd' : ∀ x ∈ m, (x != '.') = true := fun x hx => bne_iff_ne.mpr (hmd x hx)
  obtain ⟨zt, hzt, hztfull⟩ : ∃ zt, z = '.' :: zt ∧
      (('.' :: zt : List Char) = ['.', 'z', 'i', 'p'] ∨
        ('.' :: zt : List Char) = ['.', 'z', 'i', 'p', '\n']) := by
    rcases hz with rfl | rfl
    · exact ⟨['z', 'i', 'p'], rfl, Or.inl rfl⟩
    · exact ⟨['z', 'i', 'p', '\n'], rfl, Or.inr rfl⟩
  subst hzt
  have h1 : stripLit csvLit
      (csvLit ++ (d ++ '_' :: (p ++ '_' :: (f ++ '_' :: (a ++ '_' :: (m ++ '.' :: zt)))))) =
      some (d ++ '_' :: (p ++ '_' :: (f ++ '_' :: (a ++ '_' :: (m ++ '.' :: zt))))) :=
    (stripLit_eq_some _ _ _).mpr rfl
  have h2 : take8Digits (d ++ '_' :: (p ++ '_' :: (f ++ '_' :: (a ++ '_' :: (m ++ '.' :: zt))))) =
      some (d, '_' :: (p ++ '_' :: (f ++ '_' :: (a ++ '_' :: (m ++ '.' :: zt))))) :=
    (take8Digits_eq_some _ _ _).mpr ⟨rfl, hd8, hddig⟩
  have h3 : expectChar '_' ('_' :: (p ++ '_' :: (f ++ '_' :: (a ++ '_' :: (m ++ '.' :: zt))))) =
      some (p ++ '_' :: (f ++ '_' :: (a ++ '_' :: (m ++ '.' :: zt)))) :=
    (expectChar_eq_some _ _ _).mpr rfl
  have h4 : takeRun Char.isDigit (p ++ '_' :: (f ++ '_' :: (a ++ '_' :: (m ++ '.' :: zt)))) =
      some (p, '_' :: (f ++ '_' :: (a ++ '_' :: (m ++ '.' :: zt)))) :=
    takeRun_eq_some_of _ _ _ _ hpdig hp (by decide)
  have h5 : expectChar '_' ('_' :: (f ++ '_' :: (a ++ '_' :: (m ++ '.' :: zt)))) =
      some (f ++ '_' :: (a ++ '_' :: (m ++ '.' :: zt))) :=
    (expectChar_eq_some _ _ _).mpr rfl
  have h6 : takeRun Char.isDigit (f ++ '_' :: (a ++ '_' :: (m ++ '.' :: zt))) =
      some (f, '_' :: (a ++ '_' :: (m ++ '.' :: zt))) :=
    takeRun_eq_some_of _ _ _ _ hfdig hf (by decide)
  have h7 : expectChar '_' ('_' :: (a ++ '_' :: (m ++ '.' :: zt))) =
      some (a ++ '_' :: (m ++ '.' :: zt)) :=
    (expectChar_eq_some _ _ _).mpr rfl
  have h8 : takeRun (fun c => c != '_') (a ++ '_' :: (m ++ '.' :: zt)) =
      some (a, '_' :: (m ++ '.' :: zt)) :=
    takeRun_eq_some_of _ _ _ _ hau' ha (by decide)
  have h9 : expectChar '_' ('_' :: (m ++ '.' :: zt)) = some (m ++ '.' :: zt) :=
    (expectChar_eq_some _ _ _).mpr rfl
  have h10 : takeRun (fun c => c != '.') (m ++ '.' :: zt) = some (m, '.' :: zt) :=
    takeRun_eq_some_of _ _ _ _ hmd' hm (by decide)
  unfold parseChars
  rw [h1]
  simp only [Option.some_bind]
  rw [h2]
  simp only [Option.some_bind]
  rw [h3]
  simp only [Option.some_bind]
  rw [h4]
  simp only [Option.some_bind]
  rw [h5]
  simp only [Option.some_bind]
  rw [h6]
  simp only [Option.some_bind]
  rw [h7]
  simp only [Option.some_bind]
  rw [h8]
  simp only [Option.some_bind]
  rw [h9]
  simp only [Option.some_bind]
  rw [h10]
  simp only [Option.some_bind]
  rw [if_pos hztfull, hymd]
  simp only [Option.some_bind]

theorem parseChars_sound (l : List Char) (info : ArchiveInfo)
    (h : parseChars l = some info) :
    ∃ d p f a m z, GrammarDecomp l d p f a m z
      ∧ (z = ['.', 'z', 'i', 'p'] ∨ z = ['.', 'z', 'i', 'p', '\n'])
      ∧ (strptimeYmdChars d).isSome = true
      ∧ info = ⟨String.mk l, String.mk d, String.mk p, String.mk f,
                String.mk a, String.mk m⟩ := by
  unfold parseChars at h
  simp only [Option.bind_eq_some] at h
  obtain ⟨r1, hr1, dr, hdr, r3, hr3, pr, hpr, r5, hr5, fr, hfr, r7, hr7,
    ar, har, r9, hr9, mr, hmr, h⟩ := h
  rcases dr with ⟨d, r2⟩
  rcases pr with ⟨p, r4⟩
  rcases fr with ⟨f, r6⟩
  rcases ar with ⟨a, r8⟩
  rcases mr with ⟨m, r10⟩
  simp only at h hr3 hr5 hr7 hr9
  split at h
  · rename_i hzip
    simp only [Option.bind_eq_some] at h
    obtain ⟨ymd, hymd, h⟩ := h
    simp only [Option.some.injEq] at h
    have e1 : l = csvLit ++ r1 := (stripLit_eq_some _ _ _).mp hr1
    obtain ⟨e2, hd8, hddig⟩ := (take8Digits_eq_some _ _ _).mp hdr
    have e3 : r2 = '_' :: r3 := (expectChar_eq_some _ _ _).mp hr3
    obtain ⟨e4, hpne, hpdig⟩ := takeRun_sound _ _ _ _ hpr
    have e5 : r4 = '_' :: r5 := (expectChar_eq_some _ _ _).mp hr5
    obtain ⟨e6, hfne, hfdig⟩ := takeRun_sound _ _ _ _ hfr
    have e7 : r6 = '_' :: r7 := (expectChar_eq_some _ _ _).mp hr7
    obtain ⟨e8, hane, hau⟩ := takeRun_sound _ _ _ _ har
    have e9 : r8 = '_' :: r9 := (expectChar_eq_some _ _ _).mp hr9
    obtain ⟨e10, hmne, hmd⟩ := takeRun_sound _ _ _ _ hmr
    refine ⟨d, p, f, a, m, r10, ?_, hzip, ?_, h.symm⟩
    · refine ⟨?_, hd8, hddig, hpne, hpdig, hfne, hfdig, hane, ?_, hmne, ?_⟩
      · rw [e1, e2, e3, e4, e5, e6, e7, e8, e9, e10]
      · intro c hc; exact bne_iff_ne.mp (hau c hc)
      · intro c hc; exact bne_iff_ne.mp (hmd c hc)
    · rw [hymd]; rfl
  · exact absurd h (by simp)

theorem parse_isSome_iff_py (s : String) :
    (parse_archive_filename s).isSome = true ↔ PyGrammarMatch s := by
  constructor
  · intro h
    obtain ⟨info, hinfo⟩ := Option.isSome_iff_exists.mp h
    obtain ⟨d, p, f, a, m, z, hdec, hz, hsome, _⟩ :=
      parseChars_sound s.data info hinfo
    exact ⟨d, p, f, a, m, z, hdec, hz, hsome⟩
  · rintro ⟨d, p, f, a, m, z, ⟨hl, hd8, hddig, hpne, hpdig, hfne, hfdig,
      hane, hau, hmne, hmd⟩, hz, hsome⟩
    obtain ⟨ymd, hymd⟩ := Option.isSome_iff_exists.mp hsome
    have hcomp := parseChars_complete d p f a m z hd8 hddig hpne hpdig hfne
      hfdig hane hau hmne hmd hz ymd hymd
    unfold parse_archive_filename
    rw [hl, hcomp]
    rfl

theorem parse_none_iff_py (s : String) :
    parse_archive_filename s = none ↔ ¬ PyGrammarMatch s := by
  rw [← parse_isSome_iff_py s]
  cases parse_archive_filename s <;> simp

/-- A strict-grammar decomposition forces the string to end in `p` — used to
show a string ending in a newline admits no strict decomposition. -/
theorem specDecomp_getLast (l d p f a m : List Char)
    (h : GrammarDecomp l d p f a m ['.', 'z', 'i', 'p']) :
    l.getLast? = some 'p' := by
  obtain ⟨hl, -⟩ := h
  rw [hl]
  have : csvLit ++ (d ++ '_' :: (p ++ '_' :: (f ++ '_' :: (a ++ '_' ::
      (m ++ ['.', 'z', 'i', 'p']))))) =
      (csvLit ++ (d ++ '_' :: (p ++ '_' :: (f ++ '_' :: (a ++ '_' ::
        (m ++ ['.', 'z', 'i'])))))) ++ ['p'] := by
    simp
  rw [this, List.getLast?_concat]

/-- What the parser guarantees about the record it returns, in terms of the
record's own fields. -/
theorem parse_some_fields (s : String) (info : ArchiveInfo)
    (h : parse_archive_filename s = some info) :
    info.filename = s ∧ info.date_str.data.length = 8
      ∧ (∀ c ∈ info.date_str.data, c.isDigit = true)
      ∧ (strptimeYmd info.date_str).isSome = true := by
  obtain ⟨d, p, f, a, m, z, ⟨hl, hd8, hddig, -⟩, hz, hsome, hinfo⟩ :=
    parseChars_sound s.data info h
  subst hinfo
  refine ⟨?_, hd8, hddig, hsome⟩
  cases s
  rfl

/-! ## Helper lemmas: the store update -/

theorem except_map_eq_ok (f : List JVal → List JVal) (e : Except Unit (List JVal))
    (v : List JVal) :
    Except.map f e = .ok v ↔ ∃ w, e = .ok w ∧ v = f w := by
  cases e with
  | error e => simp [Except.map]
  | ok w => simp [Except.map, eq_comm]

theorem storeUpdate_nil (t new : JVal) : storeUpdate t new [] = .ok [new] := rfl

theorem storeUpdate_cons_match (t new x : JVal) (rest : List JVal)
    (hx : matchesFilename t x = true) :
    storeUpdate t new (x :: rest) = .ok (new :: rest) := by
  rcases x with s | b | n | _ | items | fields <;> simp only [matchesFilename] at hx
  · exact absurd hx (by simp)
  · exact absurd hx (by simp)
  · exact absurd hx (by simp)
  · exact absurd hx (by simp)
  · exact absurd hx (by simp)
  · simp [storeUpdate, findFirstMatch, hx]

theorem storeUpdate_cons_nomatch (t new x : JVal) (rest : List JVal)
    (hobj : ∃ fs, x = JVal.obj fs) (hx : matchesFilename t x = false) :
    storeUpdate t new (x :: rest) =
      Except.map (fun l => x :: l) (storeUpdate t new rest) := by
  obtain ⟨fs, rfl⟩ := hobj
  have hx' : jvalBeq ((List.lookup "filename" fs).getD .null) t = false := hx
  cases hfind : findFirstMatch t rest with
  | error e =>
    simp [storeUpdate, findFirstMatch, hx', hfind, Except.map]
  | ok o =>
    cases o with
    | none => simp [storeUpdate, findFirstMatch, hx', hfind, Except.map]
    | some i => simp [storeUpdate, findFirstMatch, hx', hfind, Except.map, List.set]

theorem storeUpdate_cons_nonobj (t new x : JVal) (rest : List JVal)
    (hobj : ∀ fs, x ≠ JVal.obj fs) :
    storeUpdate t new (x :: rest) = .error () := by
  rcases x with s | b | n | _ | items | fields
  · rfl
  · rfl
  · rfl
  · rfl
  · rfl
  · exact absurd rfl (hobj fields)

theorem storeUpdate_ok_of_allObjs (t new : JVal) (l : List JVal)
    (h : allObjs l) : ∃ l2, storeUpdate t new l = .ok l2 := by
  induction l with
  | nil => exact ⟨[new], rfl⟩
  | cons x rest ih =>
    have hobj : ∃ fs, x = JVal.obj fs := h x (List.mem_cons_self x rest)
    cases hmx : matchesFilename t x with
    | true => exact ⟨new :: rest, storeUpdate_cons_match t new x rest hmx⟩
    | false =>
      obtain ⟨l2, h2⟩ := ih (fun r hr => h r (List.mem_cons_of_mem x hr))
      refine ⟨x :: l2, ?_⟩
      rw [storeUpdate_cons_nomatch t new x rest hobj hmx, h2]
      rfl

theorem storeUpdate_append (t new : JVal) (l : List JVal)
    (hobjs : allObjs l) (hno : ∀ r ∈ l, matchesFilename t r = false) :
    storeUpdate t new l = .ok (l ++ [new]) := by
  induction l with
  | nil => rfl
  | cons x rest ih =>
    rw [storeUpdate_cons_nomatch t new x rest
      (hobjs x (List.mem_cons_self x rest)) (hno x (List.mem_cons_self x rest))]
    rw [ih (fun r hr => hobjs r (List.mem_cons_of_mem x hr))
      (fun r hr => hno r (List.mem_cons_of_mem x hr))]
    rfl

theorem storeUpdate_replace (t new b : JVal) (a c : List JVal)
    (hpre : ∀ r ∈ a, (∃ fs, r = JVal.obj fs) ∧ matchesFilename t r = false)
    (hb : matchesFilename t b = true) :
    storeUpdate t new (a ++ b :: c) = .ok (a ++ new :: c) := by
  induction a with
  | nil => exact storeUpdate_cons_match t new b c hb
  | cons x xs ih =>
    have hx := hpre x (List.mem_cons_self x xs)
    rw [List.cons_append, storeUpdate_cons_nomatch t new x (xs ++ b :: c) hx.1 hx.2]
    rw [ih (fun r hr => hpre r (List.mem_cons_of_mem x hr))]
    rfl

theorem storeUpdate_pos (t new : JVal) (l l2 : List JVal)
    (h : storeUpdate t new l = .ok l2) :
    (∃ i, i < l.length ∧ l2 = l.set i new) ∨ l2 = l ++ [new] := by
  induction l generalizing l2 with
  | nil =>
    rw [storeUpdate_nil] at h
    injection h with h2
    right
    exact h2.symm
  | cons x rest ih =>
    by_cases hobj : ∃ fs, x = JVal.obj fs
    · cases hmx : matchesFilename t x with
      | true =>
        rw [storeUpdate_cons_match t new x rest hmx] at h
        have h2 : l2 = new :: rest := by
          injection h with h3
          exact h3.symm
        left
        exact ⟨0, by simp, by simp [h2]⟩
      | false =>
        rw [storeUpdate_cons_nomatch t new x rest hobj hmx] at h
        obtain ⟨w, hw, rfl⟩ := (except_map_eq_ok _ _ _).mp h
        rcases ih w hw with ⟨i, hi, rfl⟩ | rfl
        · left
          exact ⟨i + 1, by simpa using hi, by simp [List.set]⟩
        · right
          simp
    · rw [storeUpdate_cons_nonobj t new x rest (by simpa using hobj)] at h
      exact absurd h (by simp)

theorem storeUpdate_find (t new : JVal) (l l2 : List JVal)
    (hnew : matchesFilename t new = true)
    (h : storeUpdate t new l = .ok l2) :
    l2.find? (matchesFilename t) = some new := by
  induction l generalizing l2 with
  | nil =>
    rw [storeUpdate_nil] at h
    injection h with h2
    rw [← h2]
    simp [List.find?, hnew]
  | cons x rest ih =>
    by_cases hobj : ∃ fs, x = JVal.obj fs
    · cases hmx : matchesFilename t x with
      | true =>
        rw [storeUpdate_cons_match t new x rest hmx] at h
        injection h with h2
        rw [← h2]
        simp [List.find?, hnew]
      | false =>
        rw [storeUpdate_cons_nomatch t new x rest hobj hmx] at h
        obtain ⟨w, hw, rfl⟩ := (except_map_eq_ok _ _ _).mp h
        simp only [List.find?, hmx]
        exact ih w hw
    · rw [storeUpdate_cons_nonobj t new x rest (by simpa using hobj)] at h
      exact absurd h (by simp)

theorem storeUpdate_count (t new : JVal) (l l2 : List JVal)
    (hnew : matchesFilename t new = true)
    (hle : l.countP (matchesFilename t) ≤ 1)
    (h : storeUpdate t new l = .ok l2) :
    l2.countP (matchesFilename t) = 1 := by
  induction l generalizing l2 with
  | nil =>
    rw [storeUpdate_nil] at h
    injection h with h2
    rw [← h2]
    simp [List.countP_cons, hnew]
  | cons x rest ih =>
    by_cases hobj : ∃ fs, x = JVal.obj fs
    · cases hmx : matchesFilename t x with
      | true =>
        rw [storeUpdate_cons_match t new x rest hmx] at h
        injection h with h2
        rw [← h2]
        have hrest : rest.countP (matchesFilename t) = 0 := by
          rw [List.countP_cons_of_pos _ _ hmx] at hle
          omega
        rw [List.countP_cons_of_pos _ _ hnew, hrest]
      | false =>
        rw [storeUpdate_cons_nomatch t new x rest hobj hmx] at h
        obtain ⟨w, hw, rfl⟩ := (except_map_eq_ok _ _ _).mp h
        rw [List.countP_cons_of_neg _ _ (by simp [hmx])] at hle ⊢
        exact ih w (by omega) hw
    · rw [storeUpdate_cons_nonobj t new x rest (by simpa using hobj)] at h
      exact absurd h (by simp)

theorem storeUpdate_absorb (t new1 new2 : JVal) (l l1 : List JVal)
    (hnew1 : matchesFilename t new1 = true)
    (h : storeUpdate t new1 l = .ok l1) :
    ∃ l2, storeUpdate t new2 l1 = .ok l2 ∧ storeUpdate t new2 l = .ok l2 := by
  induction l generalizing l1 with
  | nil =>
    rw [storeUpdate_nil] at h
    injection h with h2
    subst h2
    exact ⟨[new2], storeUpdate_cons_match t new2 new1 [] hnew1, storeUpdate_nil t new2⟩
  | cons x rest ih =>
    by_cases hobj : ∃ fs, x = JVal.obj fs
    · cases hmx : matchesFilename t x with
      | true =>
        rw [storeUpdate_cons_match t new1 x rest hmx] at h
        injection h with h2
        subst h2
        exact ⟨new2 :: rest, storeUpdate_cons_match t new2 new1 rest hnew1,
          storeUpdate_cons_match t new2 x rest hmx⟩
      | false =>
        rw [storeUpdate_cons_nomatch t new1 x rest hobj hmx] at h
        obtain ⟨w, hw, rfl⟩ := (except_map_eq_ok _ _ _).mp h
        obtain ⟨l2, ha, hb⟩ := ih w hw
        refine ⟨x :: l2, ?_, ?_⟩
        · rw [storeUpdate_cons_nomatch t new2 x w hobj hmx, ha]
          rfl
        · rw [storeUpdate_cons_nomatch t new2 x rest hobj hmx, hb]
          rfl
    · rw [storeUpdate_cons_nonobj t new1 x rest (by simpa using hobj)] at h
      exact absurd h (by simp)

/-! ## Helper lemmas: the record dictionary and the save routines -/

theorem to_dict_eq_some (info : ArchiveInfo) (flds : List (String × JVal)) :
    ArchiveInfo.to_dict info = some flds ↔
      ∃ ymd, strptimeYmd info.date_str = some ymd ∧
        flds = [("filename", JVal.str info.filename),
                ("date_str", JVal.str info.date_str),
                ("date_formatted", JVal.str (formatYmd ymd.1 ymd.2.1 ymd.2.2)),
                ("post_id", JVal.str info.post_id),
                ("floor_number", JVal.str info.floor_number),
                ("author_id", JVal.str ("匿名" ++ info.author_id)),
                ("encryption_method", JVal.str info.encryption_method),
                ("forum_url", JVal.str info.forum_url),
                ("password_description", JVal.str info.password_description)] := by
  unfold ArchiveInfo.to_dict
  cases h : strptimeYmd info.date_str with
  | none => simp
  | some ymd => simp [eq_comm]

theorem to_dict_lookup_filename (info : ArchiveInfo) (flds : List (String × JVal))
    (extra : List (String × JVal)) (h : ArchiveInfo.to_dict info = some flds) :
    List.lookup "filename" (flds ++ extra) = some (JVal.str info.filename) := by
  obtain ⟨ymd, -, rfl⟩ := (to_dict_eq_some info flds).mp h
  simp [List.lookup]

theorem to_dict_lookup_no_updated_at (info : ArchiveInfo) (flds : List (String × JVal))
    (h : ArchiveInfo.to_dict info = some flds) :
    List.lookup "updated_at" flds = none := by
  obtain ⟨ymd, -, rfl⟩ := (to_dict_eq_some info flds).mp h
  simp [List.lookup]

theorem matches_record_of_to_dict (info : ArchiveInfo) (flds extra : List (String × JVal))
    (h : ArchiveInfo.to_dict info = some flds) :
    matchesFilename (JVal.str info.filename) (JVal.obj (flds ++ extra)) = true := by
  show jvalBeq ((List.lookup "filename" (flds ++ extra)).getD .null)
      (JVal.str info.filename) = true
  rw [to_dict_lookup_filename info flds extra h]
  show jvalBeq (JVal.str info.filename) (JVal.str info.filename) = true
  simp [jvalBeq]

theorem save_archive_info_ok (info : ArchiveInfo) (now : String) (l : List JVal)
    (flds : List (String × JVal)) (l2 : List JVal)
    (hf : ArchiveInfo.to_dict info = some flds)
    (hupd : storeUpdate (JVal.str info.filename)
      (JVal.obj (flds ++ [("updated_at", JVal.str now)])) l = .ok l2) :
    save_archive_info info now (.json (.arr l)) .ok = (true, .json (.arr l2)) := by
  simp only [save_archive_info, readExistingData, hf, hupd, writeBack]

theorem save_archive_info_ok_inv (info : ArchiveInfo) (now : String)
    (fs fs' : FileContent) (h : save_archive_info info now fs .ok = (true, fs')) :
    ∃ l flds l2, readExistingData fs = some l
      ∧ ArchiveInfo.to_dict info = some flds
      ∧ storeUpdate (JVal.str info.filename)
          (JVal.obj (flds ++ [("updated_at", JVal.str now)])) l = .ok l2
      ∧ fs' = .json (.arr l2) := by
  unfold save_archive_info at h
  split at h
  · exact absurd h (by simp)
  · rename_i l hread
    split at h
    · exact absurd h (by simp)
    · rename_i flds hflds
      split at h
      · exact absurd h (by simp)
      · rename_i l2 hupd
        refine ⟨l, flds, l2, hread, hflds, hupd, ?_⟩
        simp only [writeBack, Prod.mk.injEq] at h
        exact h.2.symm

theorem markExtracted_ok (info : ArchiveInfo) (dir time : String) (l : List JVal)
    (flds : List (String × JVal)) (l2 : List JVal)
    (hf : ArchiveInfo.to_dict info = some flds)
    (hupd : storeUpdate (JVal.str info.filename)
      (JVal.obj (flds ++ [("extracted", JVal.bool true),
        ("extract_dir", JVal.str dir), ("extraction_time", JVal.str time)])) l = .ok l2) :
    markExtracted info dir time (.json (.arr l)) .ok = (true, .json (.arr l2)) := by
  have hd : markExtractedDict info dir time =
      some (JVal.obj (flds ++ [("extracted", JVal.bool true),
        ("extract_dir", JVal.str dir), ("extraction_time", JVal.str time)])) := by
    unfold markExtractedDict
    rw [hf]
    rfl
  unfold markExtracted
  rw [hd]
  simp only [save_archive_info_dict, readExistingData,
    to_dict_lookup_filename info flds _ hf, hupd, writeBack]

theorem strptimeYmdChars_inv (l : List Char) (ymd : Nat × Nat × Nat)
    (h : strptimeYmdChars l = some ymd) :
    ∃ c1 c2 c3 c4 c5 c6 c7 c8, l = [c1, c2, c3, c4, c5, c6, c7, c8]
      ∧ (∀ c ∈ l, c.isDigit = true)
      ∧ ymd = (digitVal c1 * 1000 + digitVal c2 * 100 + digitVal c3 * 10 + digitVal c4,
               digitVal c5 * 10 + digitVal c6, digitVal c7 * 10 + digitVal c8) := by
  unfold strptimeYmdChars at h
  split at h
  · rename_i c1 c2 c3 c4 c5 c6 c7 c8
    split at h
    · rename_i hdig
      dsimp only at h
      split at h
      · injection h with h2
        exact ⟨c1, c2, c3, c4, c5, c6, c7, c8, rfl,
          List.all_eq_true.mp hdig, h2.symm⟩
      · exact absurd h (by simp)
    · exact absurd h (by simp)
  · exact absurd h (by simp)

theorem formatYmd_hyphenate (s8 : String) (y m d : Nat)
    (h : strptimeYmd s8 = some (y, m, d)) :
    formatYmd y m d = hyphenate8 s8 := by
  obtain ⟨c1, c2, c3, c4, c5, c6, c7, c8, hl, hdig, hymd⟩ :=
    strptimeYmdChars_inv s8.data (y, m, d) h
  have d1 := hdig c1 (by rw [hl]; simp)
  have d2 := hdig c2 (by rw [hl]; simp)
  have d3 := hdig c3 (by rw [hl]; simp)
  have d4 := hdig c4 (by rw [hl]; simp)
  have d5 := hdig c5 (by rw [hl]; simp)
  have d6 := hdig c6 (by rw [hl]; simp)
  have d7 := hdig c7 (by rw [hl]; simp)
  have d8 := hdig c8 (by rw [hl]; simp)
  obtain ⟨hy, hm, hd⟩ : y = digitVal c1 * 1000 + digitVal c2 * 100 + digitVal c3 * 10
        + digitVal c4
      ∧ m = digitVal c5 * 10 + digitVal c6 ∧ d = digitVal c7 * 10 + digitVal c8 := by
    have h1 := congrArg Prod.fst hymd
    have h2 := congrArg (fun p => p.2.1) hymd
    have h3 := congrArg (fun p => p.2.2) hymd
    exact ⟨h1, h2, h3⟩
  unfold formatYmd hyphenate8
  rw [hl, hy, hm, hd, pad4_digits c1 c2 c3 c4 d1 d2 d3 d4,
    pad2_digits c5 c6 d5 d6, pad2_digits c7 c8 d7 d8]
  rfl

/-! ## Claim theorems -/

/-- C3: parsing `chalaoshi_csv20250502_5399305_2696_26893D_sha256.zip`
succeeds, and the persisted form of the record carries
`date_formatted = "2025-05-02"`, `post_id = "5399305"`,
`floor_number = "2696"`, the anonymity-prefixed `author_id = "匿名26893D"`,
`encryption_method = "sha256"` and `forum_url = "https://cc98.org/5399305/"`. -/
theorem c3_parse_concrete :
    parse_archive_filename "chalaoshi_csv20250502_5399305_2696_26893D_sha256.zip" =
      some ⟨"chalaoshi_csv20250502_5399305_2696_26893D_sha256.zip", "20250502",
            "5399305", "2696", "26893D", "sha256"⟩
    ∧ ArchiveInfo.to_dict ⟨"chalaoshi_csv20250502_5399305_2696_26893D_sha256.zip",
        "20250502", "5399305", "2696", "26893D", "sha256"⟩ =
      some [("filename", JVal.str "chalaoshi_csv20250502_5399305_2696_26893D_sha256.zip"),
            ("date_str", JVal.str "20250502"),
            ("date_formatted", JVal.str "2025-05-02"),
            ("post_id", JVal.str "5399305"),
            ("floor_number", JVal.str "2696"),
            ("author_id", JVal.str "匿名26893D"),
            ("encryption_method", JVal.str "sha256"),
            ("forum_url", JVal.str "https://cc98.org/5399305/"),
            ("password_description",
              JVal.str "https://cc98.org/5399305/ 中 2696楼 匿名26893D 发表内容的sha256哈希")] :=
  ⟨rfl, rfl⟩

/-- C4, counterexample: the claim says parsing returns `none` exactly when
the string fails the specification's anchored grammar (ending in `.zip`) or
has an invalid date.  The filename `chalaoshi_csv20250502_1_2_a_b.zip\n`
(one trailing newline) fails that grammar, yet CPython's `$` matches just
before one final newline, so `re.match` succeeds and the parser returns a
record — the equivalence is false at this input. -/
theorem c4_counterexample :
    ¬ (parse_archive_filename "chalaoshi_csv20250502_1_2_a_b.zip\n" = none ↔
       ¬ SpecGrammarMatch "chalaoshi_csv20250502_1_2_a_b.zip\n") := by
  intro hiff
  have hnospec : ¬ SpecGrammarMatch "chalaoshi_csv20250502_1_2_a_b.zip\n" := by
    rintro ⟨d, p, f, a, m, hdec, -⟩
    have hlast := specDecomp_getLast "chalaoshi_csv20250502_1_2_a_b.zip\n".data d p f a m hdec
    rw [show ("chalaoshi_csv20250502_1_2_a_b.zip\n").data.getLast? = some '\n' from rfl]
      at hlast
    exact absurd hlast (by decide)
  have hnone := hiff.mpr hnospec
  have hsome : parse_archive_filename "chalaoshi_csv20250502_1_2_a_b.zip\n" =
      some ⟨"chalaoshi_csv20250502_1_2_a_b.zip\n", "20250502", "1", "2", "a", "b"⟩ := rfl
  rw [hsome] at hnone
  exact absurd hnone (by simp)

/-- C4, amended: the parser is a total function (malformed input can never
raise), and it returns `none` exactly when the filename fails the anchored
grammar as the code's regex anchors it — CPython's `$` also accepts one
final newline after `.zip` — or the 8-digit date group is not a real
calendar date. -/
theorem c4_parse_none_iff_grammar (s : String) :
    parse_archive_filename s = none ↔ ¬ PyGrammarMatch s :=
  parse_none_iff_py s

theorem to_dict_lookup_date_formatted (info : ArchiveInfo) (flds : List (String × JVal))
    (h : ArchiveInfo.to_dict info = some flds) :
    ∃ ymd, strptimeYmd info.date_str = some ymd
      ∧ List.lookup "date_formatted" flds =
          some (JVal.str (formatYmd ymd.1 ymd.2.1 ymd.2.2)) := by
  obtain ⟨ymd, hymd, rfl⟩ := (to_dict_eq_some info flds).mp h
  exact ⟨ymd, hymd, by simp [List.lookup]⟩

/-- C5: for every filename the parser accepts, the persisted
`date_formatted` value is the 8-digit `date_str` with hyphens inserted
(`YYYYMMDD` reformatted as `YYYY-MM-DD`). -/
theorem c5_date_formatted_hyphenated (s : String) (info : ArchiveInfo)
    (h : parse_archive_filename s = some info) :
    ∃ flds, ArchiveInfo.to_dict info = some flds
      ∧ List.lookup "date_formatted" flds =
          some (JVal.str (hyphenate8 info.date_str)) := by
  obtain ⟨-, -, -, hsome⟩ := parse_some_fields s info h
  obtain ⟨ymd0, hymd0⟩ := Option.isSome_iff_exists.mp hsome
  have hflds : ∃ flds, ArchiveInfo.to_dict info = some flds := by
    unfold ArchiveInfo.to_dict
    rw [hymd0]
    exact ⟨_, rfl⟩
  obtain ⟨flds, hflds⟩ := hflds
  obtain ⟨ymd, hymd, hlook⟩ := to_dict_lookup_date_formatted info flds hflds
  refine ⟨flds, hflds, ?_⟩
  rw [hlook]
  rcases ymd with ⟨y, m, d⟩
  rw [formatYmd_hyphenate info.date_str y m d hymd]

/-- C5, witness at the concrete filename of the specification. -/
theorem c5_witness :
    ∃ flds, ArchiveInfo.to_dict ⟨"chalaoshi_csv20250502_5399305_2696_26893D_sha256.zip",
        "20250502", "5399305", "2696", "26893D", "sha256"⟩ = some flds
      ∧ List.lookup "date_formatted" flds = some (JVal.str (hyphenate8 "20250502")) :=
  c5_date_formatted_hyphenated "chalaoshi_csv20250502_5399305_2696_26893D_sha256.zip" _ rfl

theorem save_result_shape (info : ArchiveInfo) (now : String) (fs : FileContent)
    (w : WriteOutcome) :
    save_archive_info info now fs w = (false, fs)
    ∨ ∃ l2, save_archive_info info now fs w = writeBack fs w l2 := by
  unfold save_archive_info
  cases hr : readExistingData fs with
  | none => left; rfl
  | some l =>
    cases hd : ArchiveInfo.to_dict info with
    | none => left; rfl
    | some flds =>
      cases hu : storeUpdate (JVal.str info.filename)
          (JVal.obj (flds ++ [("updated_at", JVal.str now)])) l with
      | error e =>
        left
        show (match storeUpdate (JVal.str info.filename)
            (JVal.obj (flds ++ [("updated_at", JVal.str now)])) l with
          | Except.error _ => ((false, fs) : Bool × FileContent)
          | Except.ok l2 => writeBack fs w l2) = (false, fs)
        rw [hu]
      | ok l2 =>
        right
        refine ⟨l2, ?_⟩
        show (match storeUpdate (JVal.str info.filename)
            (JVal.obj (flds ++ [("updated_at", JVal.str now)])) l with
          | Except.error _ => ((false, fs) : Bool × FileContent)
          | Except.ok l2 => writeBack fs w l2) = writeBack fs w l2
        rw [hu]

/-- C7, counterexample: the claim says the upsert never raises — it always
returns a boolean — and that a write failure always leaves the previous
on-disk store content unchanged.  Both parts fail.  The
`mkdir(parents=True, exist_ok=True)` at line 172 runs before the `try`
and raises to the caller when the parent path is occupied or forbidden:
under that outcome no boolean is returned (`.error ()`).  And the code
truncates the file with `open(path, "w")` before `json.dump` streams into
it, so an I/O error in the middle of the write leaves a partial,
unparseable file: under the mid-write failure outcome the store's previous
content (the empty array) is replaced by corrupt content. -/
theorem c7_counterexample :
    save_archive_info_full ⟨"chalaoshi_csv20250502_1_2_a_b.zip", "20250502", "1", "2",
        "a", "b"⟩ "t" .raises (.json (.arr [])) .ok = (.error (), .json (.arr []))
    ∧ save_archive_info ⟨"chalaoshi_csv20250502_1_2_a_b.zip", "20250502", "1", "2", "a", "b"⟩
        "t" (.json (.arr [])) .midFail = (false, .corrupt)
    ∧ FileContent.corrupt ≠ FileContent.json (.arr []) :=
  ⟨rfl, rfl, fun h => FileContent.noConfusion h⟩

/-- C7, amended: the `try` body of the upsert is total and returns a
success flag, but the routine as a whole can still raise: the
parent-directory `mkdir` before the `try` propagates its exception to the
caller (store file untouched).  When `open` itself fails (e.g. an
unwritable path) the store is left unchanged, but a failure in the middle
of the non-atomic write may instead leave the file corrupt (the previous
content is lost); success happens only under the `ok` write outcome and
then the store holds a JSON array. -/
theorem c7_write_failure_behavior (info : ArchiveInfo) (now : String)
    (fs : FileContent) (w : WriteOutcome) :
    save_archive_info_full info now .raises fs w = (.error (), fs)
    ∧ (save_archive_info_full info now .ok fs w).1 =
        .ok (save_archive_info info now fs w).1
    ∧ (save_archive_info info now fs .openFail).1 = false
    ∧ (save_archive_info info now fs .openFail).2 = fs
    ∧ (save_archive_info info now fs .midFail).1 = false
    ∧ ((save_archive_info info now fs .midFail).2 = fs
        ∨ (save_archive_info info now fs .midFail).2 = .corrupt)
    ∧ ((save_archive_info info now fs w).1 = true →
        w = .ok ∧ ∃ l2, (save_archive_info info now fs w).2 = .json (.arr l2)) := by
  refine ⟨rfl, rfl, ?_, ?_, ?_, ?_, ?_⟩
  · rcases save_result_shape info now fs .openFail with h | ⟨l2, h⟩
    · rw [h]
    · rw [h]; rfl
  · rcases save_result_shape info now fs .openFail with h | ⟨l2, h⟩
    · rw [h]
    · rw [h]; rfl
  · rcases save_result_shape info now fs .midFail with h | ⟨l2, h⟩
    · rw [h]
    · rw [h]; rfl
  · rcases save_result_shape info now fs .midFail with h | ⟨l2, h⟩
    · left; rw [h]
    · right; rw [h]; rfl
  · intro hb
    rcases save_result_shape info now fs w with h | ⟨l2, h⟩
    · rw [h] at hb; exact absurd hb (by simp)
    · cases w with
      | ok => exact ⟨rfl, l2, by rw [h]; rfl⟩
      | openFail => rw [h] at hb; exact absurd hb (by simp [writeBack])
      | midFail => rw [h] at hb; exact absurd hb (by simp [writeBack])

/-- C8, counterexample: the claim says any store content that is not
parseable as JSON degrades to the empty list, so the subsequent write can
always succeed and the upsert returns success.  A store file holding bytes
that are not valid UTF-8 is not parseable as JSON, yet `json.load` raises
`UnicodeDecodeError` — a `ValueError` that is neither a
`json.JSONDecodeError` nor an `IOError` — so the inner handler at line 181
misses it, the outer handler returns failure, and nothing degrades: at a
concrete record the save returns `false` with the file unchanged. -/
theorem c8_counterexample :
    save_archive_info ⟨"chalaoshi_csv20250502_1_2_a_b.zip", "20250502", "1", "2", "a", "b"⟩
      "t1" .undecodable .ok = (false, .undecodable)
    ∧ (save_archive_info ⟨"chalaoshi_csv20250502_1_2_a_b.zip", "20250502", "1", "2",
        "a", "b"⟩ "t1" .undecodable .ok).1 ≠ true :=
  ⟨rfl, Bool.false_ne_true⟩

/-- C8, amended: with the store file absent, or its content UTF-8 text
that is not parseable as JSON (`json.JSONDecodeError`, as from a corrupt
or truncated document), the upsert degrades the read to an empty list and
continues: under a successful write outcome it returns success and the
store becomes the one-record array.  But content that is not decodable as
UTF-8 raises `UnicodeDecodeError`, which the inner
`except (json.JSONDecodeError, IOError)` does not catch: that save
returns failure with the store unchanged instead of degrading. -/
theorem c8_degraded_read_succeeds (info : ArchiveInfo) (now : String)
    (flds : List (String × JVal)) (hf : ArchiveInfo.to_dict info = some flds) :
    save_archive_info info now .absent .ok =
      (true, .json (.arr [JVal.obj (flds ++ [("updated_at", JVal.str now)])]))
    ∧ save_archive_info info now .corrupt .ok =
      (true, .json (.arr [JVal.obj (flds ++ [("updated_at", JVal.str now)])]))
    ∧ save_archive_info info now .undecodable .ok = (false, .undecodable) := by
  refine ⟨?_, ?_, rfl⟩ <;>
    simp only [save_archive_info, readExistingData, hf, storeUpdate_nil, writeBack]

/-- C8, witness at a concrete record. -/
theorem c8_witness :
    save_archive_info ⟨"chalaoshi_csv20250502_1_2_a_b.zip", "20250502", "1", "2", "a", "b"⟩
        "2025-05-02T12:00:00" .absent .ok =
      (true, .json (.arr [JVal.obj
        [("filename", JVal.str "chalaoshi_csv20250502_1_2_a_b.zip"),
         ("date_str", JVal.str "20250502"),
         ("date_formatted", JVal.str "2025-05-02"),
         ("post_id", JVal.str "1"),
         ("floor_number", JVal.str "2"),
         ("author_id", JVal.str "匿名a"),
         ("encryption_method", JVal.str "b"),
         ("forum_url", JVal.str "https://cc98.org/1/"),
         ("password_description", JVal.str "https://cc98.org/1/ 中 2楼 匿名a 发表内容的b哈希"),
         ("updated_at", JVal.str "2025-05-02T12:00:00")]]))
    ∧ save_archive_info ⟨"chalaoshi_csv20250502_1_2_a_b.zip", "20250502", "1", "2", "a", "b"⟩
        "2025-05-02T12:00:00" .corrupt .ok =
      (true, .json (.arr [JVal.obj
        [("filename", JVal.str "chalaoshi_csv20250502_1_2_a_b.zip"),
         ("date_str", JVal.str "20250502"),
         ("date_formatted", JVal.str "2025-05-02"),
         ("post_id", JVal.str "1"),
         ("floor_number", JVal.str "2"),
         ("author_id", JVal.str "匿名a"),
         ("encryption_method", JVal.str "b"),
         ("forum_url", JVal.str "https://cc98.org/1/"),
         ("password_description", JVal.str "https://cc98.org/1/ 中 2楼 匿名a 发表内容的b哈希"),
         ("updated_at", JVal.str "2025-05-02T12:00:00")]]))
    ∧ save_archive_info ⟨"chalaoshi_csv20250502_1_2_a_b.zip", "20250502", "1", "2", "a", "b"⟩
        "2025-05-02T12:00:00" .undecodable .ok = (false, .undecodable) :=
  c8_degraded_read_succeeds ⟨"chalaoshi_csv20250502_1_2_a_b.zip", "20250502", "1", "2", "a", "b"⟩
    "2025-05-02T12:00:00" _ rfl

/-- C1, counterexample: the claim says the record stored by the
post-extraction save carries an `updated_at` timestamp like every upserted
record.  Concretely, after a successful `markExtracted` on an absent store,
the stored record for the filename exists but has no `updated_at` key at
all: `extract_file` rebuilds the dict from `to_dict` plus the three
extraction fields, and `_save_archive_info_dict` stores it as-is without
attaching a timestamp. -/
theorem c1_counterexample :
    (markExtracted ⟨"chalaoshi_csv20250502_5399305_2696_26893D_sha256.zip", "20250502",
        "5399305", "2696", "26893D", "sha256"⟩ "extracted" "2025-05-02T12:00:00"
        .absent .ok).1 = true
    ∧ storedUpdatedAt (markExtracted ⟨"chalaoshi_csv20250502_5399305_2696_26893D_sha256.zip",
        "20250502", "5399305", "2696", "26893D", "sha256"⟩ "extracted" "2025-05-02T12:00:00"
        .absent .ok).2 "chalaoshi_csv20250502_5399305_2696_26893D_sha256.zip" = some none :=
  ⟨rfl, rfl⟩

/-- C1, amended: `markExtracted` uses the same find-first-then-replace-or-
append mechanics (the same `storeUpdate`) over the same store, but the
stored representation is the dict exactly as built — the `to_dict` fields
plus `extracted`, `extract_dir` and `extraction_time` — and carries no
`updated_at` timestamp. -/
theorem c1_markExtracted_no_updated_at (info : ArchiveInfo) (dir time : String)
    (l : List JVal) (flds : List (String × JVal))
    (hobjs : allObjs l) (hf : ArchiveInfo.to_dict info = some flds) :
    ∃ l2, markExtractedDict info dir time =
        some (JVal.obj (flds ++ [("extracted", JVal.bool true),
          ("extract_dir", JVal.str dir), ("extraction_time", JVal.str time)]))
      ∧ List.lookup "updated_at" (flds ++ [("extracted", JVal.bool true),
          ("extract_dir", JVal.str dir), ("extraction_time", JVal.str time)]) = none
      ∧ storeUpdate (JVal.str info.filename)
          (JVal.obj (flds ++ [("extracted", JVal.bool true),
            ("extract_dir", JVal.str dir), ("extraction_time", JVal.str time)])) l = .ok l2
      ∧ markExtracted info dir time (.json (.arr l)) .ok = (true, .json (.arr l2)) := by
  obtain ⟨l2, hupd⟩ := storeUpdate_ok_of_allObjs (JVal.str info.filename)
    (JVal.obj (flds ++ [("extracted", JVal.bool true),
      ("extract_dir", JVal.str dir), ("extraction_time", JVal.str time)])) l hobjs
  refine ⟨l2, ?_, ?_, hupd, markExtracted_ok info dir time l flds l2 hf hupd⟩
  · unfold markExtractedDict
    rw [hf]
    rfl
  · obtain ⟨ymd, -, rfl⟩ := (to_dict_eq_some info flds).mp hf
    simp [List.lookup]

/-- C1, witness at a concrete record and an empty store. -/
theorem c1_witness :
    ∃ l2, markExtractedDict ⟨"chalaoshi_csv20250502_1_2_a_b.zip", "20250502", "1", "2",
        "a", "b"⟩ "extracted" "2025-05-02T12:00:00" =
        some (JVal.obj ([("filename", JVal.str "chalaoshi_csv20250502_1_2_a_b.zip"),
          ("date_str", JVal.str "20250502"),
          ("date_formatted", JVal.str "2025-05-02"),
          ("post_id", JVal.str "1"),
          ("floor_number", JVal.str "2"),
          ("author_id", JVal.str "匿名a"),
          ("encryption_method", JVal.str "b"),
          ("forum_url", JVal.str "https://cc98.org/1/"),
          ("password_description", JVal.str "https://cc98.org/1/ 中 2楼 匿名a 发表内容的b哈希")]
          ++ [("extracted", JVal.bool true), ("extract_dir", JVal.str "extracted"),
              ("extraction_time", JVal.str "2025-05-02T12:00:00")]))
      ∧ List.lookup "updated_at" ([("filename", JVal.str "chalaoshi_csv20250502_1_2_a_b.zip"),
          ("date_str", JVal.str "20250502"),
          ("date_formatted", JVal.str "2025-05-02"),
          ("post_id", JVal.str "1"),
          ("floor_number", JVal.str "2"),
          ("author_id", JVal.str "匿名a"),
          ("encryption_method", JVal.str "b"),
          ("forum_url", JVal.str "https://cc98.org/1/"),
          ("password_description", JVal.str "https://cc98.org/1/ 中 2楼 匿名a 发表内容的b哈希")]
          ++ [("extracted", JVal.bool true), ("extract_dir", JVal.str "extracted"),
              ("extraction_time", JVal.str "2025-05-02T12:00:00")]) = none
      ∧ storeUpdate (JVal.str "chalaoshi_csv20250502_1_2_a_b.zip")
          (JVal.obj ([("filename", JVal.str "chalaoshi_csv20250502_1_2_a_b.zip"),
            ("date_str", JVal.str "20250502"),
            ("date_formatted", JVal.str "2025-05-02"),
            ("post_id", JVal.str "1"),
            ("floor_number", JVal.str "2"),
            ("author_id", JVal.str "匿名a"),
            ("encryption_method", JVal.str "b"),
            ("forum_url", JVal.str "https://cc98.org/1/"),
            ("password_description", JVal.str "https://cc98.org/1/ 中 2楼 匿名a 发表内容的b哈希")]
            ++ [("extracted", JVal.bool true), ("extract_dir", JVal.str "extracted"),
                ("extraction_time", JVal.str "2025-05-02T12:00:00")])) [] = .ok l2
      ∧ markExtracted ⟨"chalaoshi_csv20250502_1_2_a_b.zip", "20250502", "1", "2", "a", "b"⟩
          "extracted" "2025-05-02T12:00:00" (.json (.arr [])) .ok =
          (true, .json (.arr l2)) :=
  c1_markExtracted_no_updated_at ⟨"chalaoshi_csv20250502_1_2_a_b.zip", "20250502", "1", "2",
    "a", "b"⟩ "extracted" "2025-05-02T12:00:00" []
    [("filename", JVal.str "chalaoshi_csv20250502_1_2_a_b.zip"),
     ("date_str", JVal.str "20250502"),
     ("date_formatted", JVal.str "2025-05-02"),
     ("post_id", JVal.str "1"),
     ("floor_number", JVal.str "2"),
     ("author_id", JVal.str "匿名a"),
     ("encryption_method", JVal.str "b"),
     ("forum_url", JVal.str "https://cc98.org/1/"),
     ("password_description", JVal.str "https://cc98.org/1/ 中 2楼 匿名a 发表内容的b哈希")]
    (by intro r hr; exact absurd hr (List.not_mem_nil r)) rfl

/-- C2, counterexample: the claim quantifies over every store state, but on
a store that already holds two records with the same filename (producible
outside this pipeline, cf. the duplicate-tolerant scan), upserting that
filename twice replaces only the first matching entry: two successful
upserts leave two stored records for the filename, not exactly one. -/
theorem c2_counterexample :
    (save_archive_info ⟨"chalaoshi_csv20250502_1_2_a_b.zip", "20250502", "1", "2", "a", "b"⟩
        "t1" (.json (.arr [JVal.obj [("filename", JVal.str "chalaoshi_csv20250502_1_2_a_b.zip")],
          JVal.obj [("filename", JVal.str "chalaoshi_csv20250502_1_2_a_b.zip")]])) .ok).1 = true
    ∧ (save_archive_info ⟨"chalaoshi_csv20250502_1_2_a_b.zip", "20250502", "1", "3", "a", "b"⟩
        "t2" (save_archive_info ⟨"chalaoshi_csv20250502_1_2_a_b.zip", "20250502", "1", "2",
          "a", "b"⟩ "t1" (.json (.arr [JVal.obj [("filename",
            JVal.str "chalaoshi_csv20250502_1_2_a_b.zip")],
          JVal.obj [("filename", JVal.str "chalaoshi_csv20250502_1_2_a_b.zip")]])) .ok).2
        .ok).1 = true
    ∧ countByFilename "chalaoshi_csv20250502_1_2_a_b.zip"
        (storeList (save_archive_info ⟨"chalaoshi_csv20250502_1_2_a_b.zip", "20250502", "1",
          "3", "a", "b"⟩ "t2"
          (save_archive_info ⟨"chalaoshi_csv20250502_1_2_a_b.zip", "20250502", "1", "2",
            "a", "b"⟩ "t1" (.json (.arr [JVal.obj [("filename",
              JVal.str "chalaoshi_csv20250502_1_2_a_b.zip")],
            JVal.obj [("filename", JVal.str "chalaoshi_csv20250502_1_2_a_b.zip")]])) .ok).2
          .ok).2) = 2 :=
  ⟨rfl, rfl, rfl⟩

/-- C2, amended: on any store of records whose filename the incoming one
matches at most once (the store invariant), upserting the same filename
twice leaves exactly one stored record for it, holding the second call's
field values, replaced at the original list position (or appended when the
filename was absent) — the second upsert lands exactly where a single
upsert of the second record would. -/
theorem c2_upsert_twice_unique (info1 info2 : ArchiveInfo) (now1 now2 : String)
    (l : List JVal) (flds1 flds2 : List (String × JVal))
    (hsame : info1.filename = info2.filename)
    (hobjs : allObjs l)
    (huniq : countByFilename info2.filename l ≤ 1)
    (h1 : ArchiveInfo.to_dict info1 = some flds1)
    (h2 : ArchiveInfo.to_dict info2 = some flds2) :
    ∃ l2,
      save_archive_info info2 now2
        (save_archive_info info1 now1 (.json (.arr l)) .ok).2 .ok = (true, .json (.arr l2))
      ∧ storeUpdate (JVal.str info2.filename)
          (JVal.obj (flds2 ++ [("updated_at", JVal.str now2)])) l = .ok l2
      ∧ countByFilename info2.filename l2 = 1
      ∧ getRecord info2.filename l2 =
          some (JVal.obj (flds2 ++ [("updated_at", JVal.str now2)]))
      ∧ ((∃ i, i < l.length ∧ l2 = l.set i
            (JVal.obj (flds2 ++ [("updated_at", JVal.str now2)])))
          ∨ l2 = l ++ [JVal.obj (flds2 ++ [("updated_at", JVal.str now2)])]) := by
  obtain ⟨l1, hupd1⟩ := storeUpdate_ok_of_allObjs (JVal.str info1.filename)
    (JVal.obj (flds1 ++ [("updated_at", JVal.str now1)])) l hobjs
  have hsave1 : save_archive_info info1 now1 (.json (.arr l)) .ok =
      (true, .json (.arr l1)) :=
    save_archive_info_ok info1 now1 l flds1 l1 h1 hupd1
  have hmatch1 : matchesFilename (JVal.str info1.filename)
      (JVal.obj (flds1 ++ [("updated_at", JVal.str now1)])) = true :=
    matches_record_of_to_dict info1 flds1 _ h1
  rw [hsame] at hupd1 hmatch1
  obtain ⟨l2, hupd2a, hupd2b⟩ := storeUpdate_absorb (JVal.str info2.filename)
    (JVal.obj (flds1 ++ [("updated_at", JVal.str now1)]))
    (JVal.obj (flds2 ++ [("updated_at", JVal.str now2)])) l l1 hmatch1 hupd1
  have hmatch2 : matchesFilename (JVal.str info2.filename)
      (JVal.obj (flds2 ++ [("updated_at", JVal.str now2)])) = true :=
    matches_record_of_to_dict info2 flds2 _ h2
  have hsave2 : save_archive_info info2 now2 (.json (.arr l1)) .ok =
      (true, .json (.arr l2)) :=
    save_archive_info_ok info2 now2 l1 flds2 l2 h2 hupd2a
  refine ⟨l2, ?_, hupd2b, ?_, ?_, ?_⟩
  · rw [hsave1]
    exact hsave2
  · exact storeUpdate_count _ _ l l2 hmatch2 huniq hupd2b
  · exact storeUpdate_find _ _ l l2 hmatch2 hupd2b
  · exact storeUpdate_pos _ _ l l2 hupd2b

/-- C2, witness: two upserts of the same filename into an empty store. -/
theorem c2_witness :
    ∃ l2,
      save_archive_info ⟨"chalaoshi_csv20250502_1_2_a_b.zip", "20250502", "1", "3", "a", "b"⟩
        "t2" (save_archive_info ⟨"chalaoshi_csv20250502_1_2_a_b.zip", "20250502", "1", "2",
          "a", "b"⟩ "t1" (.json (.arr [])) .ok).2 .ok = (true, .json (.arr l2))
      ∧ storeUpdate (JVal.str "chalaoshi_csv20250502_1_2_a_b.zip")
          (JVal.obj ([("filename", JVal.str "chalaoshi_csv20250502_1_2_a_b.zip"),
            ("date_str", JVal.str "20250502"),
            ("date_formatted", JVal.str "2025-05-02"),
            ("post_id", JVal.str "1"),
            ("floor_number", JVal.str "3"),
            ("author_id", JVal.str "匿名a"),
            ("encryption_method", JVal.str "b"),
            ("forum_url", JVal.str "https://cc98.org/1/"),
            ("password_description", JVal.str "https://cc98.org/1/ 中 3楼 匿名a 发表内容的b哈希")]
            ++ [("updated_at", JVal.str "t2")])) [] = .ok l2
      ∧ countByFilename "chalaoshi_csv20250502_1_2_a_b.zip" l2 = 1
      ∧ getRecord "chalaoshi_csv20250502_1_2_a_b.zip" l2 =
          some (JVal.obj ([("filename", JVal.str "chalaoshi_csv20250502_1_2_a_b.zip"),
            ("date_str", JVal.str "20250502"),
            ("date_formatted", JVal.str "2025-05-02"),
            ("post_id", JVal.str "1"),
            ("floor_number", JVal.str "3"),
            ("author_id", JVal.str "匿名a"),
            ("encryption_method", JVal.str "b"),
            ("forum_url", JVal.str "https://cc98.org/1/"),
            ("password_description", JVal.str "https://cc98.org/1/ 中 3楼 匿名a 发表内容的b哈希")]
            ++ [("updated_at", JVal.str "t2")]))
      ∧ ((∃ i, i < ([] : List JVal).length ∧ l2 = List.set [] i
            (JVal.obj ([("filename", JVal.str "chalaoshi_csv20250502_1_2_a_b.zip"),
              ("date_str", JVal.str "20250502"),
              ("date_formatted", JVal.str "2025-05-02"),
              ("post_id", JVal.str "1"),
              ("floor_number", JVal.str "3"),
              ("author_id", JVal.str "匿名a"),
              ("encryption_method", JVal.str "b"),
              ("forum_url", JVal.str "https://cc98.org/1/"),
              ("password_description", JVal.str "https://cc98.org/1/ 中 3楼 匿名a 发表内容的b哈希")]
              ++ [("updated_at", JVal.str "t2")])))
          ∨ l2 = [] ++ [JVal.obj ([("filename", JVal.str "chalaoshi_csv20250502_1_2_a_b.zip"),
              ("date_str", JVal.str "20250502"),
              ("date_formatted", JVal.str "2025-05-02"),
              ("post_id", JVal.str "1"),
              ("floor_number", JVal.str "3"),
              ("author_id", JVal.str "匿名a"),
              ("encryption_method", JVal.str "b"),
              ("forum_url", JVal.str "https://cc98.org/1/"),
              ("password_description", JVal.str "https://cc98.org/1/ 中 3楼 匿名a 发表内容的b哈希")]
              ++ [("updated_at", JVal.str "t2")])]) :=
  c2_upsert_twice_unique ⟨"chalaoshi_csv20250502_1_2_a_b.zip", "20250502", "1", "2", "a", "b"⟩
    ⟨"chalaoshi_csv20250502_1_2_a_b.zip", "20250502", "1", "3", "a", "b"⟩ "t1" "t2" []
    [("filename", JVal.str "chalaoshi_csv20250502_1_2_a_b.zip"),
     ("date_str", JVal.str "20250502"),
     ("date_formatted", JVal.str "2025-05-02"),
     ("post_id", JVal.str "1"),
     ("floor_number", JVal.str "2"),
     ("author_id", JVal.str "匿名a"),
     ("encryption_method", JVal.str "b"),
     ("forum_url", JVal.str "https://cc98.org/1/"),
     ("password_description", JVal.str "https://cc98.org/1/ 中 2楼 匿名a 发表内容的b哈希")]
    [("filename", JVal.str "chalaoshi_csv20250502_1_2_a_b.zip"),
     ("date_str", JVal.str "20250502"),
     ("date_formatted", JVal.str "2025-05-02"),
     ("post_id", JVal.str "1"),
     ("floor_number", JVal.str "3"),
     ("author_id", JVal.str "匿名a"),
     ("encryption_method", JVal.str "b"),
     ("forum_url", JVal.str "https://cc98.org/1/"),
     ("password_description", JVal.str "https://cc98.org/1/ 中 3楼 匿名a 发表内容的b哈希")]
    rfl (by intro r hr; exact absurd hr (List.not_mem_nil r)) (by decide) rfl rfl

/-- C6: on a store of records, a successful upsert either replaces one
element in place (leaving every other entry, and the relative order,
untouched) or appends the new record at the end; when no stored record
carries the filename, it is exactly an append.  In particular, upserting
two records with distinct filenames into an empty store yields exactly the
two records in first-inserted-then-second order. -/
theorem c6_order_preserved_append (info : ArchiveInfo) (now : String) (l : List JVal)
    (flds : List (String × JVal)) (hobjs : allObjs l)
    (hf : ArchiveInfo.to_dict info = some flds) :
    (∃ l2, save_archive_info info now (.json (.arr l)) .ok = (true, .json (.arr l2))
      ∧ ((∃ i, i < l.length ∧ l2 = l.set i
            (JVal.obj (flds ++ [("updated_at", JVal.str now)])))
          ∨ l2 = l ++ [JVal.obj (flds ++ [("updated_at", JVal.str now)])])
      ∧ ((∀ r ∈ l, matchesFilename (JVal.str info.filename) r = false) →
          l2 = l ++ [JVal.obj (flds ++ [("updated_at", JVal.str now)])]))
    ∧ ∀ (i1 i2 : ArchiveInfo) (n1 n2 : String) (g1 g2 : List (String × JVal)),
        i1.filename ≠ i2.filename →
        ArchiveInfo.to_dict i1 = some g1 → ArchiveInfo.to_dict i2 = some g2 →
        save_archive_info i2 n2 (save_archive_info i1 n1 (.json (.arr [])) .ok).2 .ok =
          (true, .json (.arr [JVal.obj (g1 ++ [("updated_at", JVal.str n1)]),
                              JVal.obj (g2 ++ [("updated_at", JVal.str n2)])])) := by
  constructor
  · obtain ⟨l2, hupd⟩ := storeUpdate_ok_of_allObjs (JVal.str info.filename)
      (JVal.obj (flds ++ [("updated_at", JVal.str now)])) l hobjs
    refine ⟨l2, save_archive_info_ok info now l flds l2 hf hupd,
      storeUpdate_pos _ _ l l2 hupd, ?_⟩
    intro hno
    have happ := storeUpdate_append (JVal.str info.filename)
      (JVal.obj (flds ++ [("updated_at", JVal.str now)])) l hobjs hno
    rw [happ] at hupd
    injection hupd with h2
    exact h2.symm
  · intro i1 i2 n1 n2 g1 g2 hne hg1 hg2
    have hs1 : save_archive_info i1 n1 (.json (.arr [])) .ok =
        (true, .json (.arr [JVal.obj (g1 ++ [("updated_at", JVal.str n1)])])) :=
      save_archive_info_ok i1 n1 [] g1 _ hg1 (storeUpdate_nil _ _)
    rw [hs1]
    have hm : matchesFilename (JVal.str i2.filename)
        (JVal.obj (g1 ++ [("updated_at", JVal.str n1)])) = false := by
      show jvalBeq ((List.lookup "filename"
        (g1 ++ [("updated_at", JVal.str n1)])).getD .null) (JVal.str i2.filename) = false
      rw [to_dict_lookup_filename i1 g1 _ hg1]
      show (i1.filename == i2.filename) = false
      exact beq_eq_false_iff_ne.mpr hne
    have hupd2 : storeUpdate (JVal.str i2.filename)
        (JVal.obj (g2 ++ [("updated_at", JVal.str n2)]))
        [JVal.obj (g1 ++ [("updated_at", JVal.str n1)])] =
        .ok [JVal.obj (g1 ++ [("updated_at", JVal.str n1)]),
             JVal.obj (g2 ++ [("updated_at", JVal.str n2)])] := by
      rw [storeUpdate_cons_nomatch _ _ _ _ ⟨_, rfl⟩ hm, storeUpdate_nil]
      rfl
    exact save_archive_info_ok i2 n2 _ g2 _ hg2 hupd2

/-- C6, witness: an upsert on a one-record store with another filename, and
the two-record scenario on the empty store. -/
theorem c6_witness :
    (∃ l2, save_archive_info ⟨"chalaoshi_csv20250502_1_2_a_b.zip", "20250502", "1", "2",
        "a", "b"⟩ "t1"
        (.json (.arr [JVal.obj [("filename", JVal.str "other.zip")]])) .ok =
        (true, .json (.arr l2))
      ∧ ((∃ i, i < [JVal.obj [("filename", JVal.str "other.zip")]].length
            ∧ l2 = [JVal.obj [("filename", JVal.str "other.zip")]].set i
              (JVal.obj ([("filename", JVal.str "chalaoshi_csv20250502_1_2_a_b.zip"),
                ("date_str", JVal.str "20250502"),
                ("date_formatted", JVal.str "2025-05-02"),
                ("post_id", JVal.str "1"),
                ("floor_number", JVal.str "2"),
                ("author_id", JVal.str "匿名a"),
                ("encryption_method", JVal.str "b"),
                ("forum_url", JVal.str "https://cc98.org/1/"),
                ("password_description",
                  JVal.str "https://cc98.org/1/ 中 2楼 匿名a 发表内容的b哈希")]
                ++ [("updated_at", JVal.str "t1")])))
          ∨ l2 = [JVal.obj [("filename", JVal.str "other.zip")]] ++
              [JVal.obj ([("filename", JVal.str "chalaoshi_csv20250502_1_2_a_b.zip"),
                ("date_str", JVal.str "20250502"),
                ("date_formatted", JVal.str "2025-05-02"),
                ("post_id", JVal.str "1"),
                ("floor_number", JVal.str "2"),
                ("author_id", JVal.str "匿名a"),
                ("encryption_method", JVal.str "b"),
                ("forum_url", JVal.str "https://cc98.org/1/"),
                ("password_description",
                  JVal.str "https://cc98.org/1/ 中 2楼 匿名a 发表内容的b哈希")]
                ++ [("updated_at", JVal.str "t1")])])
      ∧ ((∀ r ∈ [JVal.obj [("filename", JVal.str "other.zip")]],
            matchesFilename (JVal.str "chalaoshi_csv20250502_1_2_a_b.zip") r = false) →
          l2 = [JVal.obj [("filename", JVal.str "other.zip")]] ++
              [JVal.obj ([("filename", JVal.str "chalaoshi_csv20250502_1_2_a_b.zip"),
                ("date_str", JVal.str "20250502"),
                ("date_formatted", JVal.str "2025-05-02"),
                ("post_id", JVal.str "1"),
                ("floor_number", JVal.str "2"),
                ("author_id", JVal.str "匿名a"),
                ("encryption_method", JVal.str "b"),
                ("forum_url", JVal.str "https://cc98.org/1/"),
                ("password_description",
                  JVal.str "https://cc98.org/1/ 中 2楼 匿名a 发表内容的b哈希")]
                ++ [("updated_at", JVal.str "t1")])]))
    ∧ ∀ (i1 i2 : ArchiveInfo) (n1 n2 : String) (g1 g2 : List (String × JVal)),
        i1.filename ≠ i2.filename →
        ArchiveInfo.to_dict i1 = some g1 → ArchiveInfo.to_dict i2 = some g2 →
        save_archive_info i2 n2 (save_archive_info i1 n1 (.json (.arr [])) .ok).2 .ok =
          (true, .json (.arr [JVal.obj (g1 ++ [("updated_at", JVal.str n1)]),
                              JVal.obj (g2 ++ [("updated_at", JVal.str n2)])])) :=
  c6_order_preserved_append ⟨"chalaoshi_csv20250502_1_2_a_b.zip", "20250502", "1", "2",
    "a", "b"⟩ "t1" [JVal.obj [("filename", JVal.str "other.zip")]]
    [("filename", JVal.str "chalaoshi_csv20250502_1_2_a_b.zip"),
     ("date_str", JVal.str "20250502"),
     ("date_formatted", JVal.str "2025-05-02"),
     ("post_id", JVal.str "1"),
     ("floor_number", JVal.str "2"),
     ("author_id", JVal.str "匿名a"),
     ("encryption_method", JVal.str "b"),
     ("forum_url", JVal.str "https://cc98.org/1/"),
     ("password_description", JVal.str "https://cc98.org/1/ 中 2楼 匿名a 发表内容的b哈希")]
    (by intro r hr; rw [List.mem_singleton] at hr; exact ⟨_, hr⟩) rfl

/-- C9: a record written by a successful upsert, when the store is reloaded
from disk, is found under its filename with the identical value for every
persisted key: `filename`, `date_str`, `date_formatted`, `post_id`,
`floor_number`, `author_id`, `encryption_method`, `forum_url`,
`password_description` and `updated_at`. -/
theorem c9_roundtrip (info : ArchiveInfo) (now : String) (fs fs' : FileContent)
    (h : save_archive_info info now fs .ok = (true, fs')) :
    ∃ l2 flds ymd,
      ArchiveInfo.to_dict info = some flds
      ∧ strptimeYmd info.date_str = some ymd
      ∧ readExistingData fs' = some l2
      ∧ getRecord info.filename l2 =
          some (JVal.obj (flds ++ [("updated_at", JVal.str now)]))
      ∧ List.lookup "filename" (flds ++ [("updated_at", JVal.str now)]) =
          some (JVal.str info.filename)
      ∧ List.lookup "date_str" (flds ++ [("updated_at", JVal.str now)]) =
          some (JVal.str info.date_str)
      ∧ List.lookup "date_formatted" (flds ++ [("updated_at", JVal.str now)]) =
          some (JVal.str (formatYmd ymd.1 ymd.2.1 ymd.2.2))
      ∧ List.lookup "post_id" (flds ++ [("updated_at", JVal.str now)]) =
          some (JVal.str info.post_id)
      ∧ List.lookup "floor_number" (flds ++ [("updated_at", JVal.str now)]) =
          some (JVal.str info.floor_number)
      ∧ List.lookup "author_id" (flds ++ [("updated_at", JVal.str now)]) =
          some (JVal.str ("匿名" ++ info.author_id))
      ∧ List.lookup "encryption_method" (flds ++ [("updated_at", JVal.str now)]) =
          some (JVal.str info.encryption_method)
      ∧ List.lookup "forum_url" (flds ++ [("updated_at", JVal.str now)]) =
          some (JVal.str info.forum_url)
      ∧ List.lookup "password_description" (flds ++ [("updated_at", JVal.str now)]) =
          some (JVal.str info.password_description)
      ∧ List.lookup "updated_at" (flds ++ [("updated_at", JVal.str now)]) =
          some (JVal.str now) := by
  obtain ⟨l, flds, l2, hread, hflds, hupd, rfl⟩ :=
    save_archive_info_ok_inv info now fs fs' h
  have hfind : getRecord info.filename l2 =
      some (JVal.obj (flds ++ [("updated_at", JVal.str now)])) :=
    storeUpdate_find _ _ l l2 (matches_record_of_to_dict info flds _ hflds) hupd
  obtain ⟨ymd, hymd, hlit⟩ := (to_dict_eq_some info flds).mp hflds
  subst hlit
  refine ⟨l2, _, ymd, hflds, hymd, rfl, hfind, ?_, ?_, ?_, ?_, ?_, ?_, ?_, ?_, ?_, ?_⟩ <;>
    simp [List.lookup]

/-- C9, witness: a concrete record written to an absent store. -/
theorem c9_witness :
    ∃ l2 flds ymd,
      ArchiveInfo.to_dict ⟨"chalaoshi_csv20250502_1_2_a_b.zip", "20250502", "1", "2",
          "a", "b"⟩ = some flds
      ∧ strptimeYmd "20250502" = some ymd
      ∧ readExistingData (.json (.arr [JVal.obj
          [("filename", JVal.str "chalaoshi_csv20250502_1_2_a_b.zip"),
           ("date_str", JVal.str "20250502"),
           ("date_formatted", JVal.str "2025-05-02"),
           ("post_id", JVal.str "1"),
           ("floor_number", JVal.str "2"),
           ("author_id", JVal.str "匿名a"),
           ("encryption_method", JVal.str "b"),
           ("forum_url", JVal.str "https://cc98.org/1/"),
           ("password_description", JVal.str "https://cc98.org/1/ 中 2楼 匿名a 发表内容的b哈希"),
           ("updated_at", JVal.str "t1")]])) = some l2
      ∧ getRecord "chalaoshi_csv20250502_1_2_a_b.zip" l2 =
          some (JVal.obj (flds ++ [("updated_at", JVal.str "t1")]))
      ∧ List.lookup "filename" (flds ++ [("updated_at", JVal.str "t1")]) =
          some (JVal.str "chalaoshi_csv20250502_1_2_a_b.zip")
      ∧ List.lookup "date_str" (flds ++ [("updated_at", JVal.str "t1")]) =
          some (JVal.str "20250502")
      ∧ List.lookup "date_formatted" (flds ++ [("updated_at", JVal.str "t1")]) =
          some (JVal.str (formatYmd ymd.1 ymd.2.1 ymd.2.2))
      ∧ List.lookup "post_id" (flds ++ [("updated_at", JVal.str "t1")]) =
          some (JVal.str "1")
      ∧ List.lookup "floor_number" (flds ++ [("updated_at", JVal.str "t1")]) =
          some (JVal.str "2")
      ∧ List.lookup "author_id" (flds ++ [("updated_at", JVal.str "t1")]) =
          some (JVal.str ("匿名" ++ "a"))
      ∧ List.lookup "encryption_method" (flds ++ [("updated_at", JVal.str "t1")]) =
          some (JVal.str "b")
      ∧ List.lookup "forum_url" (flds ++ [("updated_at", JVal.str "t1")]) =
          some (JVal.str (ArchiveInfo.forum_url ⟨"chalaoshi_csv20250502_1_2_a_b.zip",
            "20250502", "1", "2", "a", "b"⟩))
      ∧ List.lookup "password_description" (flds ++ [("updated_at", JVal.str "t1")]) =
          some (JVal.str (ArchiveInfo.password_description
            ⟨"chalaoshi_csv20250502_1_2_a_b.zip", "20250502", "1", "2", "a", "b"⟩))
      ∧ List.lookup "updated_at" (flds ++ [("updated_at", JVal.str "t1")]) =
          some (JVal.str "t1") :=
  c9_roundtrip ⟨"chalaoshi_csv20250502_1_2_a_b.zip", "20250502", "1", "2", "a", "b"⟩
    "t1" .absent _ rfl

/-- C10 (implicit): when the on-disk list already holds several records
with the same filename, an upsert replaces only the first matching entry —
every later duplicate stays in place, so the result still has at least two
records for that filename: the upsert preserves filename-uniqueness only on
stores that already satisfy it and never re-establishes it. -/
theorem c10_first_match_only (info : ArchiveInfo) (now : String)
    (a c : List JVal) (b dup : JVal) (flds : List (String × JVal))
    (hf : ArchiveInfo.to_dict info = some flds)
    (ha : ∀ r ∈ a, (∃ fs, r = JVal.obj fs)
      ∧ matchesFilename (JVal.str info.filename) r = false)
    (hb : matchesFilename (JVal.str info.filename) b = true)
    (hdupmem : dup ∈ c)
    (hdupmatch : matchesFilename (JVal.str info.filename) dup = true) :
    save_archive_info info now (.json (.arr (a ++ b :: c))) .ok =
      (true, .json (.arr (a ++ JVal.obj (flds ++ [("updated_at", JVal.str now)]) :: c)))
    ∧ 2 ≤ countByFilename info.filename
        (a ++ JVal.obj (flds ++ [("updated_at", JVal.str now)]) :: c) := by
  have hupd := storeUpdate_replace (JVal.str info.filename)
    (JVal.obj (flds ++ [("updated_at", JVal.str now)])) b a c ha hb
  constructor
  · exact save_archive_info_ok info now (a ++ b :: c) flds _ hf hupd
  · unfold countByFilename
    rw [List.countP_append,
      List.countP_cons_of_pos _ _ (matches_record_of_to_dict info flds _ hf)]
    have hpos : 0 < c.countP (matchesFilename (JVal.str info.filename)) :=
      List.countP_pos_iff.mpr ⟨dup, hdupmem, hdupmatch⟩
    omega

/-- C10, witness: a store holding two records for the same filename. -/
theorem c10_witness :
    save_archive_info ⟨"chalaoshi_csv20250502_1_2_a_b.zip", "20250502", "1", "2", "a", "b"⟩
      "t1" (.json (.arr ([] ++ JVal.obj [("filename",
        JVal.str "chalaoshi_csv20250502_1_2_a_b.zip")] ::
        [JVal.obj [("filename", JVal.str "chalaoshi_csv20250502_1_2_a_b.zip")]]))) .ok =
      (true, .json (.arr ([] ++ JVal.obj
        ([("filename", JVal.str "chalaoshi_csv20250502_1_2_a_b.zip"),
          ("date_str", JVal.str "20250502"),
          ("date_formatted", JVal.str "2025-05-02"),
          ("post_id", JVal.str "1"),
          ("floor_number", JVal.str "2"),
          ("author_id", JVal.str "匿名a"),
          ("encryption_method", JVal.str "b"),
          ("forum_url", JVal.str "https://cc98.org/1/"),
          ("password_description", JVal.str "https://cc98.org/1/ 中 2楼 匿名a 发表内容的b哈希")]
          ++ [("updated_at", JVal.str "t1")]) ::
        [JVal.obj [("filename", JVal.str "chalaoshi_csv20250502_1_2_a_b.zip")]])))
    ∧ 2 ≤ countByFilename "chalaoshi_csv20250502_1_2_a_b.zip"
        ([] ++ JVal.obj
          ([("filename", JVal.str "chalaoshi_csv20250502_1_2_a_b.zip"),
            ("date_str", JVal.str "20250502"),
            ("date_formatted", JVal.str "2025-05-02"),
            ("post_id", JVal.str "1"),
            ("floor_number", JVal.str "2"),
            ("author_id", JVal.str "匿名a"),
            ("encryption_method", JVal.str "b"),
            ("forum_url", JVal.str "https://cc98.org/1/"),
            ("password_description", JVal.str "https://cc98.org/1/ 中 2楼 匿名a 发表内容的b哈希")]
            ++ [("updated_at", JVal.str "t1")]) ::
          [JVal.obj [("filename", JVal.str "chalaoshi_csv20250502_1_2_a_b.zip")]]) :=
  c10_first_match_only ⟨"chalaoshi_csv20250502_1_2_a_b.zip", "20250502", "1", "2", "a", "b"⟩
    "t1" [] [JVal.obj [("filename", JVal.str "chalaoshi_csv20250502_1_2_a_b.zip")]]
    (JVal.obj [("filename", JVal.str "chalaoshi_csv20250502_1_2_a_b.zip")])
    (JVal.obj [("filename", JVal.str "chalaoshi_csv20250502_1_2_a_b.zip")])
    [("filename", JVal.str "chalaoshi_csv20250502_1_2_a_b.zip"),
     ("date_str", JVal.str "20250502"),
     ("date_formatted", JVal.str "2025-05-02"),
     ("post_id", JVal.str "1"),
     ("floor_number", JVal.str "2"),
     ("author_id", JVal.str "匿名a"),
     ("encryption_method", JVal.str "b"),
     ("forum_url", JVal.str "https://cc98.org/1/"),
     ("password_description", JVal.str "https://cc98.org/1/ 中 2楼 匿名a 发表内容的b哈希")]
    rfl (by intro r hr; exact absurd hr (List.not_mem_nil r)) rfl
    (List.mem_singleton.mpr rfl) rfl
